import Mathlib

/-!
# Verification development for the request-boundary code of `go-skeleton-auth`

Shallow embedding of

* `internal/entity/context.go` (`ContextKey`, `ContextValue`, `ContextValue.Get`),
* `internal/service/skeleton/skeleton.go` (`Service.checkPermission`),
* `internal/delivery/http/jwt_middleware.go` (`Server.JWTMiddleware`),
* `pkg/httpclient/httpclient.go` (`Client.do`, `Client.DoJSON`, `Client.DoURLQueryJSON`,
  `toIoReader`, `Client.doMethod`, `Client.doMethodJSON`, `Client.Post`, `Client.PostJSON`,
  `Client.GetJSONWithReqBody`).

Go features are embedded as follows.  A value of type `interface{}` is a `GoVal`.  A Go
`error` is an `Option String` (`none` is the nil error, `some m` an error whose text is `m`).
A run-time panic (failed type assertion, index out of range, nil dereference) is an explicit
outcome.  A Go map is an association list; the order of the list is the order in which
`range` visits the entries, which Go leaves unspecified, so statements are made for every
order.  Effects on the response writer and calls to collaborators are recorded as a list of
events in program order.
-/

namespace GoSkeletonAuth

/-! ## Dynamic values and contexts -/

/-- Values of Go type `interface{}` that occur in decoded token claims and in request
contexts: the results of JSON decoding (`nil`, `string`, `float64`, `bool`,
`[]interface{}`, `map[string]interface{}`), the struct `entity.ContextValue`, and any other
dynamic type (identified by its type name). -/
inductive GoVal where
  | nil
  | str (s : String)
  | num (n : Int)
  | bool (b : Bool)
  | slice (xs : List GoVal)
  | map (m : List (String × GoVal))
  | contextValue (M : List (String × GoVal))
  | other (typeName : String)

/-- Map indexing `m[key]` on a `map[string]interface{}`: the stored value, or the zero value
`nil` when the key is absent. -/
def mapIndex : List (String × GoVal) → String → GoVal
  | [], _ => GoVal.nil
  | (k, v) :: rest, key => if k = key then v else mapIndex rest key

/-- The method `func (c ContextValue) Get(key string) interface{}` of
`internal/entity/context.go`, on the field `M` of the receiver. -/
def ContextValue.Get (M : List (String × GoVal)) (key : String) : GoVal :=
  mapIndex M key

/-- Keys of a `context.Context`.  Go compares keys with `==` on `interface{}`, so a key of
type `entity.ContextKey` differs from a key of any other type with the same text. -/
inductive CtxKey where
  | ContextKey (s : String)
  | otherKey (typeName : String) (text : String)
  deriving DecidableEq

/-- A `context.Context` as the chain of `context.WithValue` bindings, innermost first. -/
abbrev Context := List (CtxKey × GoVal)

/-- The function `context.WithValue(parent, key, val)`. -/
def Context.WithValue (parent : Context) (key : CtxKey) (val : GoVal) : Context :=
  (key, val) :: parent

/-- The method `ctx.Value(key)`: the innermost binding of `key`, or `nil`. -/
def Context.Value : Context → CtxKey → GoVal
  | [], _ => GoVal.nil
  | (k, v) :: parent, key => if k = key then v else Context.Value parent key

/-- Whether a context binds a key at all. -/
def Context.carries (ctx : Context) (key : CtxKey) : Prop :=
  ∃ v, (key, v) ∈ ctx

/-! ## `Service.checkPermission` -/

/-- Outcome of running a Go function body: it returns a value or it panics. -/
inductive Outcome (α : Type) where
  | returns (a : α)
  | panics (msg : String)

/-- The innermost loop of `checkPermission`,
`for _, _permission := range _permissions { if permission.(string) == _permission { return nil } }`.
`returns true` means the function returned `nil`; `returns false` means the loop ran to its
end.  The type assertion `permission.(string)` is evaluated once per iteration. -/
def requiredLoop (permission : GoVal) : List String → Outcome Bool
  | [] => Outcome.returns false
  | _permission :: rest =>
    match permission with
    | GoVal.str s => if s = _permission then Outcome.returns true else requiredLoop permission rest
    | _ => Outcome.panics "interface conversion: interface \x7b\x7d is not string"

/-- The loop `for _, permission := range permissions { ... }` of `checkPermission`. -/
def permissionLoop (_permissions : List String) : List GoVal → Outcome Bool
  | [] => Outcome.returns false
  | permission :: rest =>
    match requiredLoop permission _permissions with
    | Outcome.returns true => Outcome.returns true
    | Outcome.returns false => permissionLoop _permissions rest
    | Outcome.panics m => Outcome.panics m

/-- The loop `for _, action := range actions { permissions := action.([]interface{}); ... }`
of `checkPermission`. -/
def actionLoop (_permissions : List String) : List (String × GoVal) → Outcome Bool
  | [] => Outcome.returns false
  | (_, action) :: rest =>
    match action with
    | GoVal.slice permissions =>
      match permissionLoop _permissions permissions with
      | Outcome.returns true => Outcome.returns true
      | Outcome.returns false => actionLoop _permissions rest
      | Outcome.panics m => Outcome.panics m
    | _ => Outcome.panics "interface conversion: interface \x7b\x7d is not []interface \x7b\x7d"

/-- The method `func (s Service) checkPermission(ctx context.Context, _permissions ...string) error`
of `internal/service/skeleton/skeleton.go`.  The receiver is not used by the body. -/
def checkPermission (ctx : Context) (_permissions : List String) : Outcome (Option String) :=
  match Context.Value ctx (CtxKey.ContextKey "claims") with
  | GoVal.nil => Outcome.returns (some "401 unauthorized")
  | GoVal.contextValue M =>
    match ContextValue.Get M "permissions" with
    | GoVal.map actions =>
      match actionLoop _permissions actions with
      | Outcome.returns true => Outcome.returns none
      | Outcome.returns false => Outcome.returns (some "401 unauthorized")
      | Outcome.panics m => Outcome.panics m
    | _ => Outcome.panics "interface conversion: interface \x7b\x7d is not map[string]interface \x7b\x7d"
  | _ => Outcome.panics "interface conversion: interface \x7b\x7d is not entity.ContextValue"

/-- A `permissions` claim of the shape the specification's data model describes: a map from
resource category to a list of action strings, as a Go value. -/
def permissionsValue (grants : List (String × List String)) : GoVal :=
  GoVal.map (grants.map fun g => (g.1, GoVal.slice (g.2.map GoVal.str)))

/-- The context of the specification's example: the claims
`billing: [read, write]`, `users: [delete]` attached under the context key `claims`. -/
def billingUsersCtx : Context :=
  [(CtxKey.ContextKey "claims",
    GoVal.contextValue
      [("permissions", permissionsValue [("billing", ["read", "write"]), ("users", ["delete"])])])]

/-! ## Strings, requests, the error envelope, events -/

/-- Worker of `strings.Split` for a one-character separator: `acc` holds, reversed, the
characters of the field being read. -/
def splitChars (sep : Char) : List Char → List Char → List String
  | acc, [] => [String.mk acc.reverse]
  | acc, c :: cs =>
    if c = sep then String.mk acc.reverse :: splitChars sep [] cs
    else splitChars sep (c :: acc) cs

/-- The function `strings.Split(s, sep)` of the Go standard library for a separator of one
character (the middleware splits on a space, the token parser on a dot): all fields
between separators, empty fields included; a string without separator is its own single
field. -/
def strings.Split (s : String) (sep : Char) : List String :=
  splitChars sep [] s.data

/-- The type `http.Header`: header name to list of values. -/
abbrev Header := List (String × List String)

/-- The method `http.Header.Get(key)`: the first value stored under `key`, or the empty
string.  Keys are stored in canonical form by the Go server, and `"Authorization"` and
`"Content-Encoding"` are their own canonical forms. -/
def Header.Get : Header → String → String
  | [], _ => ""
  | (k, vs) :: rest, key => if k = key then vs.headD "" else Header.Get rest key

/-- The fields of an inbound `*http.Request` that the middleware can touch. -/
structure Request where
  Method : String
  URL : String
  Header : Header
  Body : String
  ctx : Context

/-- The method `r.WithContext(ctx)`: a copy of the request with its context replaced. -/
def Request.WithContext (r : Request) (ctx : Context) : Request :=
  { r with ctx := ctx }

/-- The method `r.Context()`. -/
def Request.Context (r : Request) : Context := r.ctx

/-- Modelled from the spec: the struct `response.Error` of the package `pkg/response`, which
is not among the sources; its fields are the ones the middleware fills in, the JSON
envelope `status`, `msg`, `code` of the specification. -/
structure response.Error where
  Status : Bool
  Msg : String
  Code : Int

/-- Modelled from the spec: the struct `response.Response` of the package `pkg/response`,
which is not among the sources; only its field `Error` is used by the middleware. -/
structure response.Response where
  Error : response.Error

/-- What the middleware does to the outside, in program order. -/
inductive Event where
  | setHeader (key value : String)
  | writeHeader (code : Int)
  | renderJSON (resp : response.Response) (r : Request)
  | jwtParse (tokenString : String)
  | next (r : Request)
  | panic (msg : String)

/-! ## The token library `github.com/dgrijalva/jwt-go` (v3.2.0) -/

/-- The signing methods that the external library `jwt-go` registers.  `HS256`, `HS384`,
`HS512` are the three values of type `*SigningMethodHMAC`. -/
inductive jwt.SigningMethod where
  | HS256 | HS384 | HS512
  | RS256 | RS384 | RS512
  | PS256 | PS384 | PS512
  | ES256 | ES384 | ES512
  | none
  deriving DecidableEq

/-- Whether the dynamic type of a signing method is `*jwt.SigningMethodHMAC`. -/
def jwt.SigningMethod.isHMAC : jwt.SigningMethod → Bool
  | jwt.SigningMethod.HS256 => true
  | jwt.SigningMethod.HS384 => true
  | jwt.SigningMethod.HS512 => true
  | _ => false

/-- The method `Alg()` of a signing method. -/
def jwt.SigningMethod.Alg : jwt.SigningMethod → String
  | jwt.SigningMethod.HS256 => "HS256"
  | jwt.SigningMethod.HS384 => "HS384"
  | jwt.SigningMethod.HS512 => "HS512"
  | jwt.SigningMethod.RS256 => "RS256"
  | jwt.SigningMethod.RS384 => "RS384"
  | jwt.SigningMethod.RS512 => "RS512"
  | jwt.SigningMethod.PS256 => "PS256"
  | jwt.SigningMethod.PS384 => "PS384"
  | jwt.SigningMethod.PS512 => "PS512"
  | jwt.SigningMethod.ES256 => "ES256"
  | jwt.SigningMethod.ES384 => "ES384"
  | jwt.SigningMethod.ES512 => "ES512"
  | jwt.SigningMethod.none => "none"

/-- All registered signing methods. -/
def jwt.signingMethods : List jwt.SigningMethod :=
  [jwt.SigningMethod.HS256, jwt.SigningMethod.HS384, jwt.SigningMethod.HS512,
   jwt.SigningMethod.RS256, jwt.SigningMethod.RS384, jwt.SigningMethod.RS512,
   jwt.SigningMethod.PS256, jwt.SigningMethod.PS384, jwt.SigningMethod.PS512,
   jwt.SigningMethod.ES256, jwt.SigningMethod.ES384, jwt.SigningMethod.ES512,
   jwt.SigningMethod.none]

/-- The function `jwt.GetSigningMethod(alg)`: the registered method of that name, if any. -/
def jwt.GetSigningMethod (alg : String) : Option jwt.SigningMethod :=
  jwt.signingMethods.find? fun m => m.Alg = alg

/-- The interface `jwt.Claims` by dynamic type: `jwt.MapClaims`, or some other type. -/
inductive jwt.Claims where
  | MapClaims (m : List (String × GoVal))
  | otherClaims (typeName : String)

/-- The struct `jwt.Token`.  `Method` is `none` while the interface field is nil. -/
structure jwt.Token where
  Raw : String
  Method : Option jwt.SigningMethod
  Header : List (String × GoVal)
  Claims : jwt.Claims
  Signature : String
  Valid : Bool

/-- The type `jwt.Keyfunc`: from the parsed, not yet verified token to a key or an error. -/
abbrev jwt.Keyfunc := jwt.Token → Except String String

/-- What `jwt.Parse` hands back: the `*jwt.Token` (possibly nil) and the error, by its text
`err.Error()` (`none` is the nil error). -/
abbrev jwt.ParseResult := Option jwt.Token × Option String

/-- The struct `jwt.ValidationError`: the wrapped error (by its text), the bit set `Errors`,
and the private field `text`. -/
structure jwt.ValidationError where
  Inner : Option String
  Errors : Nat
  text : String

/-- The constant `jwt.ValidationErrorMalformed`. -/
def jwt.ValidationErrorMalformed : Nat := 1
/-- The constant `jwt.ValidationErrorUnverifiable`. -/
def jwt.ValidationErrorUnverifiable : Nat := 2
/-- The constant `jwt.ValidationErrorSignatureInvalid`. -/
def jwt.ValidationErrorSignatureInvalid : Nat := 4
/-- The constant `jwt.ValidationErrorExpired`. -/
def jwt.ValidationErrorExpired : Nat := 16
/-- The constant `jwt.ValidationErrorIssuedAt`. -/
def jwt.ValidationErrorIssuedAt : Nat := 32
/-- The constant `jwt.ValidationErrorNotValidYet`. -/
def jwt.ValidationErrorNotValidYet : Nat := 128

/-- The function `jwt.NewValidationError(errorText, errorFlags)`. -/
def jwt.NewValidationError (errorText : String) (errorFlags : Nat) : jwt.ValidationError :=
  { Inner := none, Errors := errorFlags, text := errorText }

/-- The method `func (e ValidationError) Error() string`. -/
def jwt.ValidationError.Error (e : jwt.ValidationError) : String :=
  match e.Inner with
  | some m => m
  | none => if e.text ≠ "" then e.text else "token is invalid"

/-- The method `func (e *ValidationError) valid() bool`. -/
def jwt.ValidationError.valid (e : jwt.ValidationError) : Bool := e.Errors == 0

/-- The function `verifyExp(exp, now, required)` of `jwt-go`. -/
def jwt.verifyExp (exp now : Int) (required : Bool) : Bool :=
  if exp = 0 then !required else decide (now ≤ exp)

/-- The function `verifyIat(iat, now, required)` of `jwt-go`. -/
def jwt.verifyIat (iat now : Int) (required : Bool) : Bool :=
  if iat = 0 then !required else decide (now ≥ iat)

/-- The function `verifyNbf(nbf, now, required)` of `jwt-go`. -/
def jwt.verifyNbf (nbf now : Int) (required : Bool) : Bool :=
  if nbf = 0 then !required else decide (now ≥ nbf)

/-- The method `MapClaims.VerifyExpiresAt(cmp, req)`.  A JSON number arrives as a `float64`;
`GoVal.num` carries the integer `int64(exp)` that the library compares.  The case
`json.Number` needs the parser option `UseJSONNumber`, which `jwt.Parse` leaves off. -/
def jwt.MapClaims.VerifyExpiresAt (m : List (String × GoVal)) (cmp : Int) (req : Bool) : Bool :=
  match mapIndex m "exp" with
  | GoVal.num exp => jwt.verifyExp exp cmp req
  | _ => req == false

/-- The method `MapClaims.VerifyIssuedAt(cmp, req)`. -/
def jwt.MapClaims.VerifyIssuedAt (m : List (String × GoVal)) (cmp : Int) (req : Bool) : Bool :=
  match mapIndex m "iat" with
  | GoVal.num iat => jwt.verifyIat iat cmp req
  | _ => req == false

/-- The method `MapClaims.VerifyNotBefore(cmp, req)`. -/
def jwt.MapClaims.VerifyNotBefore (m : List (String × GoVal)) (cmp : Int) (req : Bool) : Bool :=
  match mapIndex m "nbf" with
  | GoVal.num nbf => jwt.verifyNbf nbf cmp req
  | _ => req == false

/-- The method `func (m MapClaims) Valid() error` at the time `now = TimeFunc().Unix()`:
`none` is the nil error. -/
def jwt.MapClaims.Valid (m : List (String × GoVal)) (now : Int) : Option jwt.ValidationError :=
  let vErr0 : jwt.ValidationError := { Inner := none, Errors := 0, text := "" }
  let vErr1 :=
    if jwt.MapClaims.VerifyExpiresAt m now false = false then
      { vErr0 with Inner := some "Token is expired",
                   Errors := vErr0.Errors ||| jwt.ValidationErrorExpired }
    else vErr0
  let vErr2 :=
    if jwt.MapClaims.VerifyIssuedAt m now false = false then
      { vErr1 with Inner := some "Token used before issued",
                   Errors := vErr1.Errors ||| jwt.ValidationErrorIssuedAt }
    else vErr1
  let vErr3 :=
    if jwt.MapClaims.VerifyNotBefore m now false = false then
      { vErr2 with Inner := some "Token is not valid yet",
                   Errors := vErr2.Errors ||| jwt.ValidationErrorNotValidYet }
    else vErr2
  if vErr3.valid then none else some vErr3

/-- What the token library takes from outside itself: base64url decoding of a segment
(`jwt.DecodeSegment`), JSON decoding of a segment into a `map[string]interface{}`
(`encoding/json`), the cryptographic check `Method.Verify(signingString, signature, key)`
(`none` is the nil error), and the clock `TimeFunc().Unix()`. -/
structure jwt.Lib where
  DecodeSegment : String → Except String (List UInt8)
  Unmarshal : List UInt8 → Except String (List (String × GoVal))
  Verify : jwt.SigningMethod → String → String → String → Option String
  now : Int

/-- The test `strings.HasPrefix(strings.ToLower(tokenString), "bearer ")` of the parser. -/
def jwt.startsWithBearer (tokenString : String) : Bool :=
  (tokenString.data.map Char.toLower).take 7 == "bearer ".data

/-- The method `Parser.ParseUnverified(tokenString, MapClaims{})` of `jwt-go`: the token, the
segments and the error. -/
def jwt.ParseUnverified (lib : jwt.Lib) (tokenString : String) :
    Option jwt.Token × List String × Option jwt.ValidationError :=
  let parts := strings.Split tokenString '.'
  if parts.length ≠ 3 then
    (none, parts,
      some (jwt.NewValidationError "token contains an invalid number of segments"
        jwt.ValidationErrorMalformed))
  else
    let token : jwt.Token :=
      { Raw := tokenString, Method := none, Header := [], Claims := jwt.Claims.MapClaims [],
        Signature := "", Valid := false }
    match lib.DecodeSegment (parts.getD 0 "") with
    | Except.error e =>
      if jwt.startsWithBearer tokenString then
        (some token, parts,
          some (jwt.NewValidationError "tokenstring should not contain \x27bearer \x27"
            jwt.ValidationErrorMalformed))
      else
        (some token, parts,
          some { Inner := some e, Errors := jwt.ValidationErrorMalformed, text := "" })
    | Except.ok headerBytes =>
      match lib.Unmarshal headerBytes with
      | Except.error e =>
        (some token, parts,
          some { Inner := some e, Errors := jwt.ValidationErrorMalformed, text := "" })
      | Except.ok header =>
        match lib.DecodeSegment (parts.getD 1 "") with
        | Except.error e =>
          (some { token with Header := header }, parts,
            some { Inner := some e, Errors := jwt.ValidationErrorMalformed, text := "" })
        | Except.ok claimBytes =>
          match lib.Unmarshal claimBytes with
          | Except.error e =>
            (some { token with Header := header }, parts,
              some { Inner := some e, Errors := jwt.ValidationErrorMalformed, text := "" })
          | Except.ok claims =>
            let token1 : jwt.Token :=
              { token with Header := header, Claims := jwt.Claims.MapClaims claims }
            match mapIndex header "alg" with
            | GoVal.str method =>
              match jwt.GetSigningMethod method with
              | none =>
                (some token1, parts,
                  some (jwt.NewValidationError "signing method (alg) is unavailable."
                    jwt.ValidationErrorUnverifiable))
              | some m => (some { token1 with Method := some m }, parts, none)
            | _ =>
              (some token1, parts,
                some (jwt.NewValidationError "signing method (alg) is unspecified."
                  jwt.ValidationErrorUnverifiable))

/-- The function `jwt.Parse(tokenString, keyFunc)` of `jwt-go`, that is
`new(Parser).ParseWithClaims(tokenString, MapClaims{}, keyFunc)`: decode, look the key up,
validate the temporal claims, verify the signature; the token is marked `Valid` and
returned with a nil error only when nothing failed.  The two branches on a nil method or a
claims value of another type cannot be reached after `ParseUnverified` has succeeded. -/
def jwt.Parse (lib : jwt.Lib) (tokenString : String) (keyFunc : jwt.Keyfunc) : jwt.ParseResult :=
  match jwt.ParseUnverified lib tokenString with
  | (token, _, some err) => (token, some err.Error)
  | (none, _, none) => (none, none)
  | (some token, parts, none) =>
    match keyFunc token with
    | Except.error e =>
      (some token,
        some (jwt.ValidationError.Error
          { Inner := some e, Errors := jwt.ValidationErrorUnverifiable, text := "" }))
    | Except.ok key =>
      let vErr : jwt.ValidationError :=
        match token.Claims with
        | jwt.Claims.MapClaims m =>
          match jwt.MapClaims.Valid m lib.now with
          | some e => e
          | none => { Inner := none, Errors := 0, text := "" }
        | jwt.Claims.otherClaims _ => { Inner := none, Errors := 0, text := "" }
      let token1 : jwt.Token := { token with Signature := parts.getD 2 "" }
      let vErr1 : jwt.ValidationError :=
        match token.Method with
        | some method =>
          match lib.Verify method (parts.getD 0 "" ++ "." ++ parts.getD 1 "") token1.Signature key with
          | some e =>
            { vErr with Inner := some e,
                        Errors := vErr.Errors ||| jwt.ValidationErrorSignatureInvalid }
          | none => vErr
        | none =>
          { vErr with Inner := some "nil signing method",
                      Errors := vErr.Errors ||| jwt.ValidationErrorSignatureInvalid }
      if vErr1.valid then (some { token1 with Valid := true }, none)
      else (some token1, some vErr1.Error)

/-! ## `Server.JWTMiddleware` -/

/-- The key-lookup callback that `JWTMiddleware` passes to `jwt.Parse`,
`func(_token *jwt.Token) (interface{}, error)`; `TOKEN_SECRET` is the value of
`os.Getenv("TOKEN_SECRET")`.  `Except.ok key` is the return `(key, nil)`, `Except.error m`
the return `(nil, error m)`. -/
def keyFunc (TOKEN_SECRET : String) : jwt.Keyfunc := fun _token =>
  match _token.Method with
  | none => Except.error "signing method invalid - a"
  | some method =>
    if !method.isHMAC then Except.error "signing method invalid - a"
    else if method ≠ jwt.SigningMethod.HS256 then Except.error "signing method invalid - b"
    else Except.ok TOKEN_SECRET

/-- The block that every rejecting branch of `JWTMiddleware` repeats: the envelope
`response.Error{Status: false, Msg: msg, Code: code}`, the header
`Content-Type: application/json`, `w.WriteHeader(code)`, and on return the deferred
`resp.RenderJSON(w, r)`. -/
def reject (code : Int) (msg : String) (r : Request) : List Event :=
  [Event.setHeader "Content-Type" "application/json",
   Event.writeHeader code,
   Event.renderJSON { Error := { Status := false, Msg := msg, Code := code } } r]

/-- The loop `for key, val := range claims { if key != "permissions" { continue }; ... }` at
the end of `JWTMiddleware`, which rebinds `r` for every entry named `permissions`. -/
def attachClaims (r : Request) : List (String × GoVal) → Request
  | [] => r
  | (key, val) :: rest =>
    if key ≠ "permissions" then attachClaims r rest
    else
      attachClaims
        (r.WithContext
          (Context.WithValue r.Context (CtxKey.ContextKey "claims")
            (GoVal.contextValue [(key, val)])))
        rest

/-- The part of the handler of `JWTMiddleware` that follows the call
`jwtToken, err := jwt.Parse(...)`: the check of `err`, the type assertion
`jwtToken.Claims.(jwt.MapClaims)`, the check of `jwtToken.Valid`, the loop over the claims
and `next.ServeHTTP(w, r)`. -/
def afterParse (r : Request) : jwt.ParseResult → List Event
  | (_, some err) => reject 500 err r
  | (none, none) =>
    [Event.panic "runtime error: invalid memory address or nil pointer dereference"]
  | (some jwtToken, none) =>
    match jwtToken.Claims with
    | jwt.Claims.otherClaims _ => reject 401 "Invalid token: unsupported token type" r
    | jwt.Claims.MapClaims claims =>
      if !jwtToken.Valid then reject 401 "Invalid token: unsupported token type" r
      else [Event.next (attachClaims r claims)]

/-- The handler that `func (s *Server) JWTMiddleware(next http.Handler) http.Handler`
returns, run on a request `r`, over any behaviour `Parse` of `jwt.Parse`.  The result is
the list of events in program order; the call of `jwt.Parse` is itself recorded. -/
def JWTMiddlewareWith (Parse : String → jwt.Keyfunc → jwt.ParseResult)
    (TOKEN_SECRET : String) (r : Request) : List Event :=
  let authorization := Header.Get r.Header "Authorization"
  if authorization = "" then reject 403 "Invalid token: unsupported token type" r
  else
    match strings.Split authorization ' ' with
    | [] => [Event.panic "runtime error: index out of range [0] with length 0"]
    | token0 :: tokenRest =>
      if token0 ≠ "Bearer" then reject 403 "Invalid token: unsupported token type" r
      else
        match tokenRest with
        | [] => [Event.panic "runtime error: index out of range [1] with length 1"]
        | token1 :: _ =>
          Event.jwtParse token1 :: afterParse r (Parse token1 (keyFunc TOKEN_SECRET))

/-- The handler of `JWTMiddleware` with the token library `jwt-go` in place of
`jwt.Parse`. -/
def JWTMiddleware (lib : jwt.Lib) (TOKEN_SECRET : String) (r : Request) : List Event :=
  JWTMiddlewareWith (jwt.Parse lib) TOKEN_SECRET r

/-! ## `pkg/httpclient` -/

/-- The method `http.Header.Del(key)`. -/
def Header.Del (h : Header) (key : String) : Header :=
  h.filter fun kv => kv.1 ≠ key

/-- The method `http.Header.Set(key, value)`. -/
def Header.Set (h : Header) (key value : String) : Header :=
  (key, [value]) :: Header.Del h key

/-- A response body (`io.ReadCloser`): the stream that the transport delivered, named by a
number, or the wrapper `gzreadCloser{zr, closer}` that `DoJSON` puts around a body. -/
inductive httpclient.Body where
  | stream (id : Nat)
  | gzreadCloser (closer : httpclient.Body)

/-- The fields of an `*http.Response` that the client reads or writes. -/
structure httpclient.Response where
  StatusCode : Int
  Header : Header
  Body : httpclient.Body

/-- A request body as `http.NewRequest` receives it, an `io.Reader`: a reader that the caller
passed in, named by a number, or the `*bytes.Buffer` that `bytes.NewBuffer` and
`bytes.NewBufferString` make over given bytes. -/
inductive httpclient.Reader where
  | reader (id : Nat)
  | buffer (bytes : List UInt8)
  deriving DecidableEq

/-- An outbound `*http.Request`; `Body` is `none` for a request without body, as
`http.NewRequest` makes it from a nil reader. -/
structure httpclient.Request where
  Method : String
  URL : String
  Header : Header
  Body : Option httpclient.Reader := none

/-- What the client does to the outside: closing a transport stream, or a panic. -/
inductive httpclient.Effect where
  | closed (id : Nat)
  | panic (msg : String)
  deriving DecidableEq

/-- The method `Close()` of a body.  `func (gz gzreadCloser) Close() error` closes the
wrapped closer. -/
def httpclient.Body.Close : httpclient.Body → List httpclient.Effect
  | httpclient.Body.stream id => [httpclient.Effect.closed id]
  | httpclient.Body.gzreadCloser closer => httpclient.Body.Close closer

/-- The collaborators of the client: `hystrixDo req` is
`hystrix.Do(c.name, func() error { resp, err = c.client.Do(req); return err }, nil)`, an
error or the response the transport produced; then `gzip.NewReader` (its error, `none` for
success), `ioutil.ReadAll`, `json.Unmarshal` (its error), `url.Parse`, `query.Values`
followed by `Encode`, the `String()` of a URL whose `RawQuery` was set, and
`http.NewRequest` with a nil body. -/
structure httpclient.World where
  hystrixDo : httpclient.Request → Except String httpclient.Response
  gzipNewReader : httpclient.Body → Option String
  ReadAll : httpclient.Body → Except String (List UInt8)
  Unmarshal : List UInt8 → Option String
  urlParse : String → Except String String
  queryValues : GoVal → Except String String
  urlString : String → String → String
  NewRequest : String → String → Except String httpclient.Request

/-- The fields of the struct `Client` that its methods read. -/
structure httpclient.Client where
  errNon2xx : Bool
  name : String

/-- What a client operation hands back, `(*http.Response, error)`, and what it did. -/
structure httpclient.Result where
  resp : Option httpclient.Response
  err : Option String
  effects : List httpclient.Effect

/-- The method `func (c *Client) do(req *http.Request) (*http.Response, error)`; the pair is
the returned pair, `none` standing for nil. -/
def httpclient.Client.do_ (c : httpclient.Client) (w : httpclient.World)
    (req : httpclient.Request) : Option httpclient.Response × Option String :=
  match w.hystrixDo req with
  | Except.error err => (none, some err)
  | Except.ok resp =>
    if c.errNon2xx && (decide (resp.StatusCode < 200) || decide (resp.StatusCode ≥ 300)) then
      (none, some ("got non 2xx status code: " ++ toString resp.StatusCode))
    else (some resp, none)

/-- The method `func (c *Client) Do(req *http.Request) (*http.Response, error)`. -/
def httpclient.Client.Do (c : httpclient.Client) (w : httpclient.World)
    (req : httpclient.Request) : Option httpclient.Response × Option String :=
  c.do_ w req

/-- The method `func (c *Client) DoJSON(req, data) (*http.Response, error)`.  The deferred
`resp.Body.Close()` is bound to the body that `resp` holds when the `defer` statement runs,
and its effect comes last on every path after it. -/
def httpclient.Client.DoJSON (c : httpclient.Client) (w : httpclient.World)
    (req : httpclient.Request) : httpclient.Result :=
  match c.do_ w req with
  | (_, some err) => { resp := none, err := some err, effects := [] }
  | (none, none) =>
    { resp := none, err := none,
      effects := [httpclient.Effect.panic "runtime error: invalid memory address or nil pointer dereference"] }
  | (some resp, none) =>
    let deferred := resp.Body.Close
    if Header.Get resp.Header "Content-Encoding" = "gzip" then
      let resp1 := { resp with Header := Header.Del resp.Header "Content-Length" }
      match w.gzipNewReader resp1.Body with
      | some err => { resp := none, err := some err, effects := deferred }
      | none =>
        let resp2 := { resp1 with Body := httpclient.Body.gzreadCloser resp1.Body }
        match w.ReadAll resp2.Body with
        | Except.error err => { resp := none, err := some err, effects := deferred }
        | Except.ok b => { resp := some resp2, err := w.Unmarshal b, effects := deferred }
    else
      match w.ReadAll resp.Body with
      | Except.error err => { resp := none, err := some err, effects := deferred }
      | Except.ok b => { resp := some resp, err := w.Unmarshal b, effects := deferred }

/-- The method `func (c *Client) DoURLQueryJSON(ctx, method, path, param, response)
(resp *http.Response, err error)`; every bare `return` hands back the named results as
they stand.  The `defer resp.Body.Close()` stands after the read of the body. -/
def httpclient.Client.DoURLQueryJSON (c : httpclient.Client) (w : httpclient.World)
    (method path : String) (param : GoVal) : httpclient.Result :=
  match w.urlParse path with
  | Except.error err => { resp := none, err := some err, effects := [] }
  | Except.ok requestURL =>
    match w.queryValues param with
    | Except.error err => { resp := none, err := some err, effects := [] }
    | Except.ok urlQuery =>
      match w.NewRequest method (w.urlString requestURL urlQuery) with
      | Except.error err => { resp := none, err := some err, effects := [] }
      | Except.ok req0 =>
        let req :=
          { req0 with
            Header := Header.Set req0.Header "Content-Type" "application/x-www-form-urlencoded" }
        match c.Do w req with
        | (resp, some err) => { resp := resp, err := some err, effects := [] }
        | (none, none) =>
          { resp := none, err := none,
            effects := [httpclient.Effect.panic "runtime error: invalid memory address or nil pointer dereference"] }
        | (some resp, none) =>
          match w.ReadAll resp.Body with
          | Except.error err => { resp := some resp, err := some err, effects := [] }
          | Except.ok body =>
            { resp := some resp, err := w.Unmarshal body, effects := resp.Body.Close }

/-- The argument `body interface{}` of `Post`, `PostJSON` and `GetJSONWithReqBody` by dynamic
type: a value whose type implements `io.Reader`, a `[]byte`, or a value of any other type
(`nil` and `string` among them). -/
inductive httpclient.BodyArg where
  | reader (id : Nat)
  | bytes (b : List UInt8)
  | val (v : GoVal)

/-- The collaborators of the request-building operations: those of `httpclient.World`,
`json.Marshal`, and `Inject`, the change that
`span.Tracer().Inject(span.Context(), opentracing.HTTPHeaders, carrier)` makes to the
header that is its carrier. -/
structure httpclient.Env extends httpclient.World where
  Marshal : GoVal → Except String (List UInt8)
  Inject : Header → Header

/-- The function `func toIoReader(body interface{}) (io.Reader, error)`; the cases of the
type switch in the order of the source.  `[]byte(s)` is the UTF-8 encoding of `s`. -/
def httpclient.toIoReader (Marshal : GoVal → Except String (List UInt8)) :
    httpclient.BodyArg → Option httpclient.Reader × Option String
  | httpclient.BodyArg.val GoVal.nil => (none, none)
  | httpclient.BodyArg.reader id => (some (httpclient.Reader.reader id), none)
  | httpclient.BodyArg.val (GoVal.str body) =>
    (some (httpclient.Reader.buffer body.toUTF8.data.toList), none)
  | httpclient.BodyArg.bytes body => (some (httpclient.Reader.buffer body), none)
  | httpclient.BodyArg.val body =>
    match Marshal body with
    | Except.error err => (none, some err)
    | Except.ok b => (some (httpclient.Reader.buffer b), none)

/-- What a request-building operation did and returned: the request it passed on to `Do` or
`DoJSON`, if it got that far, and what that call returned. -/
structure httpclient.Call (α : Type) where
  issued : Option httpclient.Request
  out : α

/-- The request that `doMethod` and `doMethodJSON` hand on once `http.NewRequest` has
succeeded, where `req0` is what `http.NewRequest(method, url, nil)` makes: the body reader
put in by `http.NewRequest`, then `req.Header = headers` when `headers` is not nil, then,
when the context carries a span (`spanInCtx`), the injection of the span context into
`req.Header`.  Starting, tagging and finishing the span do not touch the request. -/
def httpclient.outgoing (env : httpclient.Env) (spanInCtx : Bool) (req0 : httpclient.Request)
    (bodyReader : Option httpclient.Reader) (headers : Option Header) : httpclient.Request :=
  let req1 : httpclient.Request := { req0 with Body := bodyReader }
  let req2 : httpclient.Request :=
    match headers with
    | some h => { req1 with Header := h }
    | none => req1
  if spanInCtx then { req2 with Header := env.Inject req2.Header } else req2

/-- The statements that `doMethod` and `doMethodJSON` share, up to the call of `Do` or
`DoJSON`: `toIoReader(body)`, `http.NewRequest(method, url, bodyReader)`, each with its
early return of the error, then the headers and the span. -/
def httpclient.buildRequest (env : httpclient.Env) (spanInCtx : Bool) (method url : String)
    (body : httpclient.BodyArg) (headers : Option Header) : Except String httpclient.Request :=
  match httpclient.toIoReader env.Marshal body with
  | (_, some err) => Except.error err
  | (bodyReader, none) =>
    match env.NewRequest method url with
    | Except.error err => Except.error err
    | Except.ok req0 => Except.ok (httpclient.outgoing env spanInCtx req0 bodyReader headers)

/-- The method `func (c *Client) doMethod(ctx, method, url, endpoint, body, headers)`; the
argument `endpoint` only names the span. -/
def httpclient.Client.doMethod (c : httpclient.Client) (env : httpclient.Env) (spanInCtx : Bool)
    (method url : String) (body : httpclient.BodyArg) (headers : Option Header) :
    httpclient.Call (Option httpclient.Response × Option String) :=
  match httpclient.buildRequest env spanInCtx method url body headers with
  | Except.error err => { issued := none, out := (none, some err) }
  | Except.ok req => { issued := some req, out := c.Do env.toWorld req }

/-- The method `func (c *Client) doMethodJSON(ctx, method, url, endpoint, body, headers, data)`. -/
def httpclient.Client.doMethodJSON (c : httpclient.Client) (env : httpclient.Env)
    (spanInCtx : Bool) (method url : String) (body : httpclient.BodyArg)
    (headers : Option Header) : httpclient.Call httpclient.Result :=
  match httpclient.buildRequest env spanInCtx method url body headers with
  | Except.error err => { issued := none, out := { resp := none, err := some err, effects := [] } }
  | Except.ok req => { issued := some req, out := c.DoJSON env.toWorld req }

/-- The method `func (c *Client) Post(ctx, url, span, headers, body)`, that is
`c.doMethod(ctx, http.MethodPost, url, span, body, headers)`. -/
def httpclient.Client.Post (c : httpclient.Client) (env : httpclient.Env) (spanInCtx : Bool)
    (url : String) (headers : Option Header) (body : httpclient.BodyArg) :
    httpclient.Call (Option httpclient.Response × Option String) :=
  c.doMethod env spanInCtx "POST" url body headers

/-- The method `func (c *Client) PostJSON(ctx, url, span, headers, body, data)`, that is
`c.doMethodJSON(ctx, http.MethodPost, url, span, body, headers, data)`. -/
def httpclient.Client.PostJSON (c : httpclient.Client) (env : httpclient.Env) (spanInCtx : Bool)
    (url : String) (headers : Option Header) (body : httpclient.BodyArg) :
    httpclient.Call httpclient.Result :=
  c.doMethodJSON env spanInCtx "POST" url body headers

/-- The method `func (c *Client) GetJSONWithReqBody(ctx, url, span, headers, requestBody, data)`,
that is `c.doMethodJSON(ctx, http.MethodGet, url, span, requestBody, headers, data)`. -/
def httpclient.Client.GetJSONWithReqBody (c : httpclient.Client) (env : httpclient.Env)
    (spanInCtx : Bool) (url : String) (headers : Option Header)
    (requestBody : httpclient.BodyArg) : httpclient.Call httpclient.Result :=
  c.doMethodJSON env spanInCtx "GET" url requestBody headers

/-- The requests that `Post`, `PostJSON` and `GetJSONWithReqBody` issue for one body: the two
POST operations issue `post`, the GET operation issues `get` (`none`: no request). -/
def httpclient.issue (c : httpclient.Client) (env : httpclient.Env) (spanInCtx : Bool)
    (url : String) (headers : Option Header) (body : httpclient.BodyArg)
    (post get : Option httpclient.Request) : Prop :=
  (c.Post env spanInCtx url headers body).issued = post
    ∧ (c.PostJSON env spanInCtx url headers body).issued = post
    ∧ (c.GetJSONWithReqBody env spanInCtx url headers body).issued = get

/-! ## Reading event lists; sample requests -/

/-- The next handler was invoked: some `next.ServeHTTP(w, r)` is among the events. -/
def invokesNext (events : List Event) : Prop := ∃ r, Event.next r ∈ events

/-- The token parser was called: some `jwt.Parse(tokenString, ...)` is among the events. -/
def attemptsParse (events : List Event) : Prop := ∃ t, Event.jwtParse t ∈ events

/-- The header form that the specification names, `Bearer <token>`: the word `Bearer`, one
space, then a non-empty token. -/
def isBearerForm (authorization : String) : Prop :=
  ∃ token : String, token ≠ "" ∧ authorization = "Bearer " ++ token

/-- A `GET /skeleton` request whose only header is `Authorization: authorization`. -/
def requestWith (authorization : String) : Request :=
  { Method := "GET", URL := "/skeleton", Header := [("Authorization", [authorization])],
    Body := "", ctx := [] }

/-- A `GET /skeleton` request without any header. -/
def requestWithoutHeader : Request :=
  { Method := "GET", URL := "/skeleton", Header := [], Body := "", ctx := [] }

/-- A small instance of the collaborators of the token library, on which the parser can be
evaluated: the segments `hs256` and `hs384` decode to headers that declare these
algorithms, `exp900` to the claims with expiry 900, `perms` to claims with a subject and a
`permissions` entry; the signature `sig` verifies under the key `s3cret` for every method;
the clock reads 1000. -/
def sampleLib : jwt.Lib :=
  { DecodeSegment := fun seg =>
      if seg = "hs256" then Except.ok [1]
      else if seg = "hs384" then Except.ok [2]
      else if seg = "exp900" then Except.ok [3]
      else if seg = "perms" then Except.ok [4]
      else Except.error "illegal base64 data at input byte 0"
    Unmarshal := fun bytes =>
      if bytes = [1] then Except.ok [("alg", GoVal.str "HS256"), ("typ", GoVal.str "JWT")]
      else if bytes = [2] then Except.ok [("alg", GoVal.str "HS384"), ("typ", GoVal.str "JWT")]
      else if bytes = [3] then Except.ok [("exp", GoVal.num 900)]
      else if bytes = [4] then
        Except.ok [("sub", GoVal.str "u1"),
                   ("permissions", permissionsValue [("billing", ["read"])])]
      else Except.error "unexpected end of JSON input"
    Verify := fun _ _ signature key =>
      if signature = "sig" ∧ key = "s3cret" then none else some "signature is invalid"
    now := 1000 }

/-- A response of the given status with an uncompressed body, the stream number 7. -/
def sampleResponse (status : Int) : httpclient.Response :=
  { StatusCode := status, Header := [], Body := httpclient.Body.stream 7 }

/-- A world in which every request can be built, the transport answers every request with
the given status, and reading the body breaks off with an error. -/
def brokenBodyWorld (status : Int) : httpclient.World :=
  { hystrixDo := fun _ => Except.ok (sampleResponse status)
    gzipNewReader := fun _ => none
    ReadAll := fun _ => Except.error "unexpected EOF"
    Unmarshal := fun _ => none
    urlParse := fun path => Except.ok path
    queryValues := fun _ => Except.ok "q=1"
    urlString := fun u q => u ++ "?" ++ q
    NewRequest := fun method url => Except.ok { Method := method, URL := url, Header := [] } }

/-- The collaborators of `sampleLib` with one more segment: `permstr` decodes to claims whose
`permissions` entry is the string `admin`. -/
def stringPermissionsLib : jwt.Lib :=
  { sampleLib with
    DecodeSegment := fun seg =>
      if seg = "permstr" then Except.ok [5] else sampleLib.DecodeSegment seg
    Unmarshal := fun bytes =>
      if bytes = [5] then Except.ok [("permissions", GoVal.str "admin")]
      else sampleLib.Unmarshal bytes }

/-- The collaborators of `brokenBodyWorld 200` together with a `json.Marshal` that
serializes every value to the two bytes of an empty JSON object and fails on a value of
the type `chan int`, and a tracer that injects the header `Uber-Trace-Id`. -/
def sampleEnv : httpclient.Env :=
  { brokenBodyWorld 200 with
    Marshal := fun v =>
      match v with
      | GoVal.other "chan int" => Except.error "json: unsupported type: chan int"
      | _ => Except.ok [123, 125]
    Inject := fun h => Header.Set h "Uber-Trace-Id" "1:1:0:1" }

/-! ## Theorems: `checkPermission` -/

theorem Context.Value_eq_nil_of_not_carries (ctx : Context) (key : CtxKey)
    (h : ¬ Context.carries ctx key) : Context.Value ctx key = GoVal.nil := by
  induction ctx with
  | nil => rfl
  | cons kv rest ih =>
    obtain ⟨k, v⟩ := kv
    have hk : k ≠ key := by
      intro hk
      exact h ⟨v, by simp [hk]⟩
    have hrest : ¬ Context.carries rest key := by
      rintro ⟨v', hv'⟩
      exact h ⟨v', List.mem_cons_of_mem _ hv'⟩
    simp [Context.Value, hk, ih hrest]

theorem requiredLoop_str (s : String) (_permissions : List String) :
    requiredLoop (GoVal.str s) _permissions = Outcome.returns (decide (s ∈ _permissions)) := by
  induction _permissions with
  | nil => simp [requiredLoop]
  | cons p rest ih =>
    by_cases hp : s = p
    · simp [requiredLoop, hp]
    · simp [requiredLoop, hp, ih]

theorem permissionLoop_strs (_permissions : List String) (actions : List String) :
    permissionLoop _permissions (actions.map GoVal.str)
      = Outcome.returns (actions.any fun a => decide (a ∈ _permissions)) := by
  induction actions with
  | nil => simp [permissionLoop]
  | cons a rest ih =>
    by_cases ha : a ∈ _permissions
    · simp [permissionLoop, requiredLoop_str, ha]
    · simp [permissionLoop, requiredLoop_str, ha, ih]

theorem actionLoop_grants (_permissions : List String) (grants : List (String × List String)) :
    actionLoop _permissions (grants.map fun g => (g.1, GoVal.slice (g.2.map GoVal.str)))
      = Outcome.returns (grants.any fun g => g.2.any fun a => decide (a ∈ _permissions)) := by
  induction grants with
  | nil => simp [actionLoop]
  | cons g rest ih =>
    by_cases hg : (g.2.any fun a => decide (a ∈ _permissions)) = true
    · simp only [List.map_cons, actionLoop, permissionLoop_strs, hg, List.any_cons, Bool.true_or]
    · simp only [Bool.not_eq_true] at hg
      simp only [List.map_cons, actionLoop, permissionLoop_strs, hg, List.any_cons, Bool.false_or]
      exact ih

/-- C1: on a context that carries no value under the context key `claims`, `checkPermission`
returns the error `401 unauthorized` for every list of required permissions, and so never
returns nil. -/
theorem C1_checkPermission_fail_closed (ctx : Context) (_permissions : List String)
    (h : ¬ Context.carries ctx (CtxKey.ContextKey "claims")) :
    checkPermission ctx _permissions = Outcome.returns (some "401 unauthorized")
      ∧ checkPermission ctx _permissions ≠ Outcome.returns none := by
  have hv := Context.Value_eq_nil_of_not_carries ctx _ h
  have hc : checkPermission ctx _permissions = Outcome.returns (some "401 unauthorized") := by
    simp [checkPermission, hv]
  exact ⟨hc, by simp [hc]⟩

theorem C1_checkPermission_fail_closed_witness :
    ¬ Context.carries [(CtxKey.otherKey "string" "claims", GoVal.str "x")]
        (CtxKey.ContextKey "claims")
      ∧ checkPermission [(CtxKey.otherKey "string" "claims", GoVal.str "x")] ["read"]
          = Outcome.returns (some "401 unauthorized")
      ∧ checkPermission [(CtxKey.otherKey "string" "claims", GoVal.str "x")] []
          = Outcome.returns (some "401 unauthorized") :=
  have h : ¬ Context.carries [(CtxKey.otherKey "string" "claims", GoVal.str "x")]
      (CtxKey.ContextKey "claims") := by
    rintro ⟨v, hv⟩
    simp at hv
  ⟨h, (C1_checkPermission_fail_closed _ ["read"] h).1, (C1_checkPermission_fail_closed _ [] h).1⟩

/-- C2: when the claims attached under `claims` hold a `permissions` value that maps resource
categories to lists of action strings, `checkPermission` returns nil exactly when some
required permission equals some action of some category, and the error `401 unauthorized`
in every other case. -/
theorem C2_checkPermission_any_category (ctx : Context) (M : List (String × GoVal))
    (grants : List (String × List String)) (_permissions : List String)
    (hctx : Context.Value ctx (CtxKey.ContextKey "claims") = GoVal.contextValue M)
    (hperm : ContextValue.Get M "permissions" = permissionsValue grants) :
    (checkPermission ctx _permissions = Outcome.returns none
        ↔ ∃ p ∈ _permissions, ∃ g ∈ grants, p ∈ g.2)
      ∧ (¬ (∃ p ∈ _permissions, ∃ g ∈ grants, p ∈ g.2)
        → checkPermission ctx _permissions = Outcome.returns (some "401 unauthorized")) := by
  have hrun : checkPermission ctx _permissions
      = if (grants.any fun g => g.2.any fun a => decide (a ∈ _permissions)) = true
        then Outcome.returns none else Outcome.returns (some "401 unauthorized") := by
    simp only [checkPermission, hctx, hperm, permissionsValue, actionLoop_grants]
    generalize (grants.any fun g => g.2.any fun a => decide (a ∈ _permissions)) = b
    cases b <;> rfl
  have hiff : (grants.any fun g => g.2.any fun a => decide (a ∈ _permissions)) = true
      ↔ ∃ p ∈ _permissions, ∃ g ∈ grants, p ∈ g.2 := by
    simp only [List.any_eq_true, decide_eq_true_eq]
    constructor
    · rintro ⟨g, hg, a, ha, hp⟩
      exact ⟨a, hp, g, hg, ha⟩
    · rintro ⟨p, hp, g, hg, ha⟩
      exact ⟨g, hg, p, ha, hp⟩
  rw [hrun, ← hiff]
  generalize (grants.any fun g => g.2.any fun a => decide (a ∈ _permissions)) = b
  cases b <;> simp

theorem C2_checkPermission_any_category_witness :
    checkPermission billingUsersCtx ["read"] = Outcome.returns none
      ∧ checkPermission billingUsersCtx ["export"] = Outcome.returns (some "401 unauthorized") :=
  ⟨(C2_checkPermission_any_category billingUsersCtx
      [("permissions", permissionsValue [("billing", ["read", "write"]), ("users", ["delete"])])]
      [("billing", ["read", "write"]), ("users", ["delete"])]
      ["read"] rfl rfl).1.2 ⟨"read", by simp, ("billing", ["read", "write"]), by simp, by simp⟩,
   (C2_checkPermission_any_category billingUsersCtx
      [("permissions", permissionsValue [("billing", ["read", "write"]), ("users", ["delete"])])]
      [("billing", ["read", "write"]), ("users", ["delete"])]
      ["export"] rfl rfl).2 (by decide)⟩

/-! ## Theorems: `JWTMiddleware`, the header -/

theorem Header.Get_eq_empty_of_absent (h : Header) (key : String)
    (habs : ∀ vs, (key, vs) ∉ h) : Header.Get h key = "" := by
  induction h with
  | nil => rfl
  | cons kv rest ih =>
    obtain ⟨k, vs⟩ := kv
    have hk : k ≠ key := by
      intro hk
      exact habs vs (by simp [hk])
    have hrest : ∀ vs', (key, vs') ∉ rest := fun vs' hm =>
      habs vs' (List.mem_cons_of_mem _ hm)
    simp [Header.Get, hk, ih hrest]

theorem not_invokesNext_reject (code : Int) (msg : String) (r : Request) :
    ¬ invokesNext (reject code msg r) := by
  rintro ⟨r', hr'⟩
  simp [reject] at hr'

theorem not_attemptsParse_reject (code : Int) (msg : String) (r : Request) :
    ¬ attemptsParse (reject code msg r) := by
  rintro ⟨t, ht⟩
  simp [reject] at ht

theorem JWTMiddlewareWith_bearer
    (Parse : String → jwt.Keyfunc → jwt.ParseResult) (TOKEN_SECRET : String) (r : Request)
    (token1 : String) (rest : List String)
    (hsplit : strings.Split (Header.Get r.Header "Authorization") ' '
      = "Bearer" :: token1 :: rest) :
    JWTMiddlewareWith Parse TOKEN_SECRET r
      = Event.jwtParse token1 :: afterParse r (Parse token1 (keyFunc TOKEN_SECRET)) := by
  have hne : Header.Get r.Header "Authorization" ≠ "" := by
    intro he
    rw [he] at hsplit
    have hempty : strings.Split "" ' ' = [""] := by decide
    rw [hempty] at hsplit
    simp at hsplit
  simp [JWTMiddlewareWith, hne, hsplit]

theorem not_isBearerForm_bearer_space : ¬ isBearerForm "Bearer " := by
  rintro ⟨token, hne, heq⟩
  apply hne
  have hdata := congrArg String.data heq
  rw [String.data_append] at hdata
  have hnil : token.data = [] := by
    have hlen := congrArg List.length hdata
    simp only [List.length_append] at hlen
    have h0 : token.data.length = 0 := by
      have h7 : "Bearer ".data.length = 7 := by decide
      omega
    exact List.length_eq_zero.mp h0
  exact String.ext hnil

/-- C4: a request without an `Authorization` header, or with an empty one, gets status 403
and the envelope with status false, code 403 and a message that contains
`unsupported token type`; the token parser and the next handler are not called. -/
theorem C4_missing_header_rejected_403
    (Parse : String → jwt.Keyfunc → jwt.ParseResult) (TOKEN_SECRET : String) (r : Request)
    (h : (∀ vs, ("Authorization", vs) ∉ r.Header) ∨ Header.Get r.Header "Authorization" = "") :
    JWTMiddlewareWith Parse TOKEN_SECRET r
        = [Event.setHeader "Content-Type" "application/json",
           Event.writeHeader 403,
           Event.renderJSON
             { Error := { Status := false,
                          Msg := "Invalid token: " ++ "unsupported token type",
                          Code := 403 } } r]
      ∧ ¬ invokesNext (JWTMiddlewareWith Parse TOKEN_SECRET r)
      ∧ ¬ attemptsParse (JWTMiddlewareWith Parse TOKEN_SECRET r) := by
  have hget : Header.Get r.Header "Authorization" = "" := by
    rcases h with h | h
    · exact Header.Get_eq_empty_of_absent _ _ h
    · exact h
  have hrun : JWTMiddlewareWith Parse TOKEN_SECRET r
      = reject 403 "Invalid token: unsupported token type" r := by
    simp [JWTMiddlewareWith, hget]
  refine ⟨?_, ?_, ?_⟩
  · rw [hrun]; rfl
  · rw [hrun]; exact not_invokesNext_reject _ _ _
  · rw [hrun]; exact not_attemptsParse_reject _ _ _

theorem C4_missing_header_rejected_403_witness :
    JWTMiddlewareWith (fun _ _ => (none, none)) "s3cret" requestWithoutHeader
        = [Event.setHeader "Content-Type" "application/json",
           Event.writeHeader 403,
           Event.renderJSON
             { Error := { Status := false,
                          Msg := "Invalid token: " ++ "unsupported token type",
                          Code := 403 } } requestWithoutHeader]
      ∧ JWTMiddlewareWith (fun _ _ => (none, none)) "s3cret" (requestWith "")
        = [Event.setHeader "Content-Type" "application/json",
           Event.writeHeader 403,
           Event.renderJSON
             { Error := { Status := false,
                          Msg := "Invalid token: " ++ "unsupported token type",
                          Code := 403 } } (requestWith "")] :=
  ⟨(C4_missing_header_rejected_403 _ "s3cret" requestWithoutHeader
      (Or.inl fun vs hm => by simp [requestWithoutHeader] at hm)).1,
   (C4_missing_header_rejected_403 _ "s3cret" (requestWith "") (Or.inr rfl)).1⟩

/-- C3, as the specification states it, fails on the header `Bearer ` followed by an empty
token: the header is not empty and not of the form `Bearer <token>`, yet the middleware
hands the empty token to the parser, whatever the parser does, and its answer is not the
403 rejection; with the token library the answer is status 500. -/
theorem C3_bearer_empty_token_counterexample :
    Header.Get (requestWith "Bearer ").Header "Authorization" ≠ ""
      ∧ ¬ isBearerForm (Header.Get (requestWith "Bearer ").Header "Authorization")
      ∧ (∀ (Parse : String → jwt.Keyfunc → jwt.ParseResult) (TOKEN_SECRET : String),
          attemptsParse (JWTMiddlewareWith Parse TOKEN_SECRET (requestWith "Bearer "))
          ∧ JWTMiddlewareWith Parse TOKEN_SECRET (requestWith "Bearer ")
              ≠ reject 403 "Invalid token: unsupported token type" (requestWith "Bearer "))
      ∧ (∀ (lib : jwt.Lib) (TOKEN_SECRET : String),
          JWTMiddleware lib TOKEN_SECRET (requestWith "Bearer ")
            = [Event.jwtParse "",
               Event.setHeader "Content-Type" "application/json",
               Event.writeHeader 500,
               Event.renderJSON
                 { Error := { Status := false,
                              Msg := "token contains an invalid number of segments",
                              Code := 500 } } (requestWith "Bearer ")]) := by
  have hget : Header.Get (requestWith "Bearer ").Header "Authorization" = "Bearer " := rfl
  have hsplit : strings.Split (Header.Get (requestWith "Bearer ").Header "Authorization") ' '
      = ["Bearer", ""] := by decide
  have hrun : ∀ (Parse : String → jwt.Keyfunc → jwt.ParseResult) (TOKEN_SECRET : String),
      JWTMiddlewareWith Parse TOKEN_SECRET (requestWith "Bearer ")
        = Event.jwtParse "" :: afterParse (requestWith "Bearer ") (Parse "" (keyFunc TOKEN_SECRET)) :=
    fun Parse TOKEN_SECRET =>
      JWTMiddlewareWith_bearer Parse TOKEN_SECRET (requestWith "Bearer ") "" [] hsplit
  refine ⟨by rw [hget]; decide, by rw [hget]; exact not_isBearerForm_bearer_space, ?_, ?_⟩
  · intro Parse TOKEN_SECRET
    refine ⟨⟨"", by rw [hrun]; simp⟩, ?_⟩
    rw [hrun]
    simp [reject]
  · intro lib TOKEN_SECRET
    rfl

/-- C3, amended: when the `Authorization` header is not empty and its first field, up to the
first space, is not exactly `Bearer`, the middleware answers 403 with the envelope
`Invalid token: unsupported token type`, without calling the token parser or the next
handler. -/
theorem C3_first_field_not_bearer_rejected_403
    (Parse : String → jwt.Keyfunc → jwt.ParseResult) (TOKEN_SECRET : String) (r : Request)
    (hne : Header.Get r.Header "Authorization" ≠ "")
    (hfirst : (strings.Split (Header.Get r.Header "Authorization") ' ').head? ≠ some "Bearer") :
    JWTMiddlewareWith Parse TOKEN_SECRET r
        = [Event.setHeader "Content-Type" "application/json",
           Event.writeHeader 403,
           Event.renderJSON
             { Error := { Status := false,
                          Msg := "Invalid token: unsupported token type",
                          Code := 403 } } r]
      ∧ ¬ attemptsParse (JWTMiddlewareWith Parse TOKEN_SECRET r)
      ∧ ¬ invokesNext (JWTMiddlewareWith Parse TOKEN_SECRET r) := by
  have hrun : JWTMiddlewareWith Parse TOKEN_SECRET r
      = reject 403 "Invalid token: unsupported token type" r := by
    simp only [JWTMiddlewareWith, hne, if_false]
    cases hs : strings.Split (Header.Get r.Header "Authorization") ' ' with
    | nil =>
      exfalso
      have : ∀ (cs acc : List Char), splitChars ' ' acc cs ≠ [] := by
        intro cs
        induction cs with
        | nil => intro acc; simp [splitChars]
        | cons c cs ih =>
          intro acc
          simp only [splitChars]
          split
          · simp
          · exact ih _
      exact this _ _ hs
    | cons token0 tokenRest =>
      rw [hs] at hfirst
      have h0 : token0 ≠ "Bearer" := by
        intro h0
        exact hfirst (by simp [h0])
      simp [h0]
  refine ⟨?_, ?_, ?_⟩
  · rw [hrun]; rfl
  · rw [hrun]; exact not_attemptsParse_reject _ _ _
  · rw [hrun]; exact not_invokesNext_reject _ _ _

theorem C3_first_field_not_bearer_rejected_403_witness :
    JWTMiddlewareWith (fun _ _ => (none, none)) "s3cret" (requestWith "Basic abc")
        = [Event.setHeader "Content-Type" "application/json",
           Event.writeHeader 403,
           Event.renderJSON
             { Error := { Status := false,
                          Msg := "Invalid token: unsupported token type",
                          Code := 403 } } (requestWith "Basic abc")]
      ∧ JWTMiddlewareWith (fun _ _ => (none, none)) "s3cret" (requestWith "bearer abc")
        = [Event.setHeader "Content-Type" "application/json",
           Event.writeHeader 403,
           Event.renderJSON
             { Error := { Status := false,
                          Msg := "Invalid token: unsupported token type",
                          Code := 403 } } (requestWith "bearer abc")] :=
  ⟨(C3_first_field_not_bearer_rejected_403 _ "s3cret" (requestWith "Basic abc")
      (by decide) (by decide)).1,
   (C3_first_field_not_bearer_rejected_403 _ "s3cret" (requestWith "bearer abc")
      (by decide) (by decide)).1⟩

/-! ## Theorems: `JWTMiddleware`, the token -/

theorem keyFunc_ok_iff (TOKEN_SECRET : String) (_token : jwt.Token) (key : String) :
    keyFunc TOKEN_SECRET _token = Except.ok key
      ↔ (_token.Method = some jwt.SigningMethod.HS256 ∧ key = TOKEN_SECRET) := by
  cases hm : _token.Method with
  | none => simp [keyFunc, hm]
  | some m =>
    cases m <;> simp [keyFunc, hm, jwt.SigningMethod.isHMAC, eq_comm]

theorem keyFunc_error_of_not_HS256 (TOKEN_SECRET : String) (_token : jwt.Token)
    (h : _token.Method ≠ some jwt.SigningMethod.HS256) :
    keyFunc TOKEN_SECRET _token = Except.error "signing method invalid - a"
      ∨ keyFunc TOKEN_SECRET _token = Except.error "signing method invalid - b" := by
  cases hm : _token.Method with
  | none => simp [keyFunc, hm]
  | some m =>
    rw [hm] at h
    cases m <;> simp_all [keyFunc, jwt.SigningMethod.isHMAC]

theorem jwt.Parse_keyFunc_error (lib : jwt.Lib) (tokenString : String) (keyFunc : jwt.Keyfunc)
    (token : jwt.Token) (parts : List String) (e : String)
    (hparse : jwt.ParseUnverified lib tokenString = (some token, parts, none))
    (hkey : keyFunc token = Except.error e) :
    jwt.Parse lib tokenString keyFunc = (some token, some e) := by
  simp [jwt.Parse, hparse, hkey, jwt.ValidationError.Error]

/-- C5: the key-lookup callback returns a key, and then the signing secret, exactly when the
declared signing method is HS256; for every other method, HMAC or not, it returns one of
its two errors and no key; and a bearer token that the parser decodes with such a method
is answered with status 500 and never forwarded, whatever the signature check would
say. -/
theorem C5_only_HS256_gets_the_secret (TOKEN_SECRET : String) (_token : jwt.Token) :
    (∀ key, keyFunc TOKEN_SECRET _token = Except.ok key
        ↔ (_token.Method = some jwt.SigningMethod.HS256 ∧ key = TOKEN_SECRET))
      ∧ (_token.Method ≠ some jwt.SigningMethod.HS256 →
          keyFunc TOKEN_SECRET _token = Except.error "signing method invalid - a"
            ∨ keyFunc TOKEN_SECRET _token = Except.error "signing method invalid - b")
      ∧ (∀ (lib : jwt.Lib) (r : Request) (token1 : String) (rest parts : List String),
          strings.Split (Header.Get r.Header "Authorization") ' ' = "Bearer" :: token1 :: rest →
          jwt.ParseUnverified lib token1 = (some _token, parts, none) →
          _token.Method ≠ some jwt.SigningMethod.HS256 →
          (∃ msg, JWTMiddleware lib TOKEN_SECRET r
              = [Event.jwtParse token1,
                 Event.setHeader "Content-Type" "application/json",
                 Event.writeHeader 500,
                 Event.renderJSON { Error := { Status := false, Msg := msg, Code := 500 } } r])
            ∧ ¬ invokesNext (JWTMiddleware lib TOKEN_SECRET r)) := by
  refine ⟨fun key => keyFunc_ok_iff _ _ key, keyFunc_error_of_not_HS256 _ _, ?_⟩
  intro lib r token1 rest parts hsplit hparse hm
  have hrun : ∀ e, keyFunc TOKEN_SECRET _token = Except.error e →
      JWTMiddleware lib TOKEN_SECRET r = Event.jwtParse token1 :: reject 500 e r := by
    intro e he
    rw [JWTMiddleware, JWTMiddlewareWith_bearer _ _ _ _ _ hsplit,
      jwt.Parse_keyFunc_error lib token1 _ _token parts e hparse he]
    rfl
  have hmsg : ∃ e, JWTMiddleware lib TOKEN_SECRET r = Event.jwtParse token1 :: reject 500 e r := by
    rcases keyFunc_error_of_not_HS256 TOKEN_SECRET _token hm with he | he
    · exact ⟨_, hrun _ he⟩
    · exact ⟨_, hrun _ he⟩
  obtain ⟨e, he⟩ := hmsg
  refine ⟨⟨e, by rw [he]; rfl⟩, ?_⟩
  rw [he]
  rintro ⟨r', hr'⟩
  simp [reject] at hr'

theorem C5_only_HS256_gets_the_secret_witness :
    keyFunc "s3cret"
        { Raw := "hs256.perms.sig", Method := some jwt.SigningMethod.HS256, Header := [],
          Claims := jwt.Claims.MapClaims [], Signature := "", Valid := false }
        = Except.ok "s3cret"
      ∧ JWTMiddleware sampleLib "s3cret" (requestWith "Bearer hs384.perms.sig")
        = [Event.jwtParse "hs384.perms.sig",
           Event.setHeader "Content-Type" "application/json",
           Event.writeHeader 500,
           Event.renderJSON
             { Error := { Status := false, Msg := "signing method invalid - b", Code := 500 } }
             (requestWith "Bearer hs384.perms.sig")]
      ∧ ¬ invokesNext (JWTMiddleware sampleLib "s3cret" (requestWith "Bearer hs384.perms.sig")) :=
  ⟨((C5_only_HS256_gets_the_secret "s3cret"
      { Raw := "hs256.perms.sig", Method := some jwt.SigningMethod.HS256, Header := [],
        Claims := jwt.Claims.MapClaims [], Signature := "", Valid := false }).1 "s3cret").2
      ⟨rfl, rfl⟩,
   rfl,
   ((C5_only_HS256_gets_the_secret "s3cret"
      { Raw := "hs384.perms.sig", Method := some jwt.SigningMethod.HS384,
        Header := [("alg", GoVal.str "HS384"), ("typ", GoVal.str "JWT")],
        Claims := jwt.Claims.MapClaims
          [("sub", GoVal.str "u1"), ("permissions", permissionsValue [("billing", ["read"])])],
        Signature := "", Valid := false }).2.2
      sampleLib (requestWith "Bearer hs384.perms.sig") "hs384.perms.sig" []
      ["hs384", "perms", "sig"] rfl rfl (by decide)).2⟩

/-! ## Theorems: `JWTMiddleware`, the outcomes -/

/-- C6 fails on the header `Bearer` without a space: `strings.Split` yields the single field
`Bearer`, the check of `token[0]` passes, and `token[1]` panics with an index out of
range; no status is written, no envelope is rendered, and the next handler is not
invoked, so the request is neither rejected nor forwarded. -/
theorem C6_bearer_without_token_panics :
    ∀ (Parse : String → jwt.Keyfunc → jwt.ParseResult) (TOKEN_SECRET : String),
      JWTMiddlewareWith Parse TOKEN_SECRET (requestWith "Bearer")
        = [Event.panic "runtime error: index out of range [1] with length 1"] := by
  intro Parse TOKEN_SECRET
  have hget : Header.Get (requestWith "Bearer").Header "Authorization" = "Bearer" := rfl
  have hsplit : strings.Split "Bearer" ' ' = ["Bearer"] := by decide
  simp [JWTMiddlewareWith, hget, hsplit]

theorem afterParse_outcomes (r : Request) (res : jwt.ParseResult) :
    (∃ msg, afterParse r res = [Event.panic msg])
      ∨ (∃ code msg, (code = 500 ∨ code = 401) ∧ afterParse r res = reject code msg r)
      ∨ (∃ r', afterParse r res = [Event.next r']) := by
  obtain ⟨tok, err⟩ := res
  cases err with
  | some e => exact Or.inr (Or.inl ⟨500, e, Or.inl rfl, by cases tok <;> rfl⟩)
  | none =>
    cases tok with
    | none => exact Or.inl ⟨_, rfl⟩
    | some jwtToken =>
      cases hc : jwtToken.Claims with
      | otherClaims n =>
        refine Or.inr (Or.inl ⟨401, "Invalid token: unsupported token type", Or.inr rfl, ?_⟩)
        simp [afterParse, hc]
      | MapClaims claims =>
        cases hv : jwtToken.Valid with
        | false =>
          refine Or.inr (Or.inl ⟨401, "Invalid token: unsupported token type", Or.inr rfl, ?_⟩)
          simp [afterParse, hc, hv]
        | true =>
          refine Or.inr (Or.inr ⟨attachClaims r claims, ?_⟩)
          simp [afterParse, hc, hv]

/-- Apart from a panic, the handler rejects with one of the statuses 403, 500, 401 and the
matching envelope, or forwards with one call of the next handler and nothing written. -/
theorem JWTMiddlewareWith_outcomes
    (Parse : String → jwt.Keyfunc → jwt.ParseResult) (TOKEN_SECRET : String) (r : Request) :
    (∃ msg, JWTMiddlewareWith Parse TOKEN_SECRET r = [Event.panic msg])
      ∨ (∃ t msg, JWTMiddlewareWith Parse TOKEN_SECRET r = [Event.jwtParse t, Event.panic msg])
      ∨ (∃ code msg, (code = 403 ∨ code = 500 ∨ code = 401)
          ∧ (JWTMiddlewareWith Parse TOKEN_SECRET r = reject code msg r
            ∨ ∃ t, JWTMiddlewareWith Parse TOKEN_SECRET r = Event.jwtParse t :: reject code msg r))
      ∨ (∃ t r', JWTMiddlewareWith Parse TOKEN_SECRET r = [Event.jwtParse t, Event.next r']) := by
  by_cases hget : Header.Get r.Header "Authorization" = ""
  · refine Or.inr (Or.inr (Or.inl
      ⟨403, "Invalid token: unsupported token type", Or.inl rfl, Or.inl ?_⟩))
    simp [JWTMiddlewareWith, hget]
  · cases hs : strings.Split (Header.Get r.Header "Authorization") ' ' with
    | nil =>
      refine Or.inl ⟨"runtime error: index out of range [0] with length 0", ?_⟩
      simp [JWTMiddlewareWith, hget, hs]
    | cons token0 tokenRest =>
      by_cases h0 : token0 = "Bearer"
      · cases tokenRest with
        | nil =>
          refine Or.inl ⟨"runtime error: index out of range [1] with length 1", ?_⟩
          simp [JWTMiddlewareWith, hget, hs, h0]
        | cons token1 rest =>
          subst h0
          rw [JWTMiddlewareWith_bearer Parse TOKEN_SECRET r token1 rest hs]
          rcases afterParse_outcomes r (Parse token1 (keyFunc TOKEN_SECRET)) with
            ⟨msg, hm⟩ | ⟨code, msg, hcode, hm⟩ | ⟨r', hm⟩
          · exact Or.inr (Or.inl ⟨token1, msg, by rw [hm]⟩)
          · exact Or.inr (Or.inr (Or.inl ⟨code, msg, Or.inr hcode, Or.inr ⟨token1, by rw [hm]⟩⟩))
          · exact Or.inr (Or.inr (Or.inr ⟨token1, r', by rw [hm]⟩))
      · refine Or.inr (Or.inr (Or.inl
      ⟨403, "Invalid token: unsupported token type", Or.inl rfl, Or.inl ?_⟩))
        simp [JWTMiddlewareWith, hget, hs, h0]

theorem jwt.ParseUnverified_token_of_no_error (lib : jwt.Lib) (tokenString : String) :
    (jwt.ParseUnverified lib tokenString).2.2 = none →
      (jwt.ParseUnverified lib tokenString).1 ≠ none := by
  unfold jwt.ParseUnverified
  simp only
  repeat' split
  all_goals simp

theorem jwt.Parse_ne_nil_nil (lib : jwt.Lib) (tokenString : String) (keyFunc : jwt.Keyfunc) :
    jwt.Parse lib tokenString keyFunc ≠ (none, none) := by
  have h := jwt.ParseUnverified_token_of_no_error lib tokenString
  unfold jwt.Parse
  split
  · simp
  · rename_i heq
    rw [heq] at h
    simp at h
  · split
    · simp
    · simp only
      split <;> simp

/-- With the token library in place, the handler panics on no other request than one whose
`Authorization` header consists of the single field `Bearer`. -/
theorem JWTMiddleware_panics_only_without_token (lib : jwt.Lib) (TOKEN_SECRET : String)
    (r : Request) (msg : String)
    (hpanic : Event.panic msg ∈ JWTMiddleware lib TOKEN_SECRET r) :
    strings.Split (Header.Get r.Header "Authorization") ' ' = ["Bearer"] := by
  unfold JWTMiddleware at hpanic
  by_cases hget : Header.Get r.Header "Authorization" = ""
  · simp [JWTMiddlewareWith, hget, reject] at hpanic
  · cases hs : strings.Split (Header.Get r.Header "Authorization") ' ' with
    | nil =>
      exfalso
      have hne : ∀ (cs acc : List Char), splitChars ' ' acc cs ≠ [] := by
        intro cs
        induction cs with
        | nil => intro acc; simp [splitChars]
        | cons c cs ih =>
          intro acc
          simp only [splitChars]
          split
          · simp
          · exact ih _
      exact hne _ _ hs
    | cons token0 tokenRest =>
      by_cases h0 : token0 = "Bearer"
      · cases tokenRest with
        | nil => rw [h0]
        | cons token1 rest =>
          exfalso
          subst h0
          rw [JWTMiddlewareWith_bearer _ _ _ _ _ hs] at hpanic
          rcases afterParse_outcomes r (jwt.Parse lib token1 (keyFunc TOKEN_SECRET)) with
            ⟨m, hm⟩ | ⟨code, m, _, hm⟩ | ⟨r', hm⟩
          · have hnn := jwt.Parse_ne_nil_nil lib token1 (keyFunc TOKEN_SECRET)
            generalize jwt.Parse lib token1 (keyFunc TOKEN_SECRET) = res at hm hnn
            obtain ⟨tok, err⟩ := res
            cases err with
            | some e => cases tok <;> simp [afterParse, reject] at hm
            | none =>
              cases tok with
              | none => exact hnn rfl
              | some jwtToken =>
                simp only [afterParse] at hm
                split at hm
                · simp [reject] at hm
                · split at hm <;> simp [reject] at hm
          · rw [hm] at hpanic
            simp [reject] at hpanic
          · rw [hm] at hpanic
            simp at hpanic
      · simp [JWTMiddlewareWith, hget, hs, h0, reject] at hpanic

theorem jwt.MapClaims.Valid_of_expired (m : List (String × GoVal)) (now exp : Int)
    (hexp : mapIndex m "exp" = GoVal.num exp) (hexp0 : exp ≠ 0) (hexpired : exp < now) :
    ∃ vErr, jwt.MapClaims.Valid m now = some vErr ∧ vErr.valid = false
      ∧ (∃ msg, vErr.Inner = some msg)
      ∧ (jwt.MapClaims.VerifyIssuedAt m now false = true →
          jwt.MapClaims.VerifyNotBefore m now false = true →
          vErr.Inner = some "Token is expired") := by
  have hv : jwt.MapClaims.VerifyExpiresAt m now false = false := by
    simp [jwt.MapClaims.VerifyExpiresAt, hexp, jwt.verifyExp, hexp0, hexpired]
  unfold jwt.MapClaims.Valid
  simp only [hv, if_true]
  cases jwt.MapClaims.VerifyIssuedAt m now false <;>
    cases jwt.MapClaims.VerifyNotBefore m now false <;>
    simp [jwt.ValidationError.valid, jwt.ValidationErrorExpired, jwt.ValidationErrorIssuedAt,
      jwt.ValidationErrorNotValidYet]

/-- C7 fails on a well-formed bearer token, signed with HS256 under the secret, that has
expired: `jwt.Parse` reports the invalid temporal claims through its error, so the handler
answers in its `err != nil` branch with status 500 and code 500, and the branch for
`!jwtToken.Valid`, which would answer 401, is not reached; when the other temporal claims
are in order the message is `Token is expired`. -/
theorem C7_expired_token_answered_500 (lib : jwt.Lib) (TOKEN_SECRET : String) (r : Request)
    (token1 : String) (rest : List String) (token : jwt.Token) (p0 p1 p2 : String)
    (claims : List (String × GoVal)) (exp : Int)
    (hsplit : strings.Split (Header.Get r.Header "Authorization") ' '
      = "Bearer" :: token1 :: rest)
    (hparse : jwt.ParseUnverified lib token1 = (some token, [p0, p1, p2], none))
    (hmethod : token.Method = some jwt.SigningMethod.HS256)
    (hclaims : token.Claims = jwt.Claims.MapClaims claims)
    (hverify : lib.Verify jwt.SigningMethod.HS256 (p0 ++ "." ++ p1) p2 TOKEN_SECRET = none)
    (hexp : mapIndex claims "exp" = GoVal.num exp) (hexp0 : exp ≠ 0)
    (hexpired : exp < lib.now) :
    (∃ msg, JWTMiddleware lib TOKEN_SECRET r
        = [Event.jwtParse token1,
           Event.setHeader "Content-Type" "application/json",
           Event.writeHeader 500,
           Event.renderJSON { Error := { Status := false, Msg := msg, Code := 500 } } r])
      ∧ Event.writeHeader 401 ∉ JWTMiddleware lib TOKEN_SECRET r
      ∧ (jwt.MapClaims.VerifyIssuedAt claims lib.now false = true →
          jwt.MapClaims.VerifyNotBefore claims lib.now false = true →
          JWTMiddleware lib TOKEN_SECRET r
            = [Event.jwtParse token1,
               Event.setHeader "Content-Type" "application/json",
               Event.writeHeader 500,
               Event.renderJSON
                 { Error := { Status := false, Msg := "Token is expired", Code := 500 } } r]) := by
  obtain ⟨vErr, hvalid, hnot, ⟨msg, hinner⟩, hmsg⟩ :=
    jwt.MapClaims.Valid_of_expired claims lib.now exp hexp hexp0 hexpired
  have hkey : keyFunc TOKEN_SECRET token = Except.ok TOKEN_SECRET :=
    (keyFunc_ok_iff TOKEN_SECRET token TOKEN_SECRET).2 ⟨hmethod, rfl⟩
  have hP : jwt.Parse lib token1 (keyFunc TOKEN_SECRET)
      = (some { token with Signature := p2 }, some msg) := by
    simp [jwt.Parse, hparse, hkey, hclaims, hvalid, hmethod, hverify, hnot,
      jwt.ValidationError.Error, hinner]
  have hrun : JWTMiddleware lib TOKEN_SECRET r = Event.jwtParse token1 :: reject 500 msg r := by
    rw [JWTMiddleware, JWTMiddlewareWith_bearer _ _ _ _ _ hsplit, hP]
    rfl
  refine ⟨⟨msg, by rw [hrun]; rfl⟩, ?_, ?_⟩
  · rw [hrun]
    simp [reject]
  · intro hiat hnbf
    have hm := hmsg hiat hnbf
    rw [hinner] at hm
    cases hm
    rw [hrun]
    rfl

theorem C7_expired_token_answered_500_witness :
    JWTMiddleware sampleLib "s3cret" (requestWith "Bearer hs256.exp900.sig")
      = [Event.jwtParse "hs256.exp900.sig",
         Event.setHeader "Content-Type" "application/json",
         Event.writeHeader 500,
         Event.renderJSON
           { Error := { Status := false, Msg := "Token is expired", Code := 500 } }
           (requestWith "Bearer hs256.exp900.sig")] :=
  (C7_expired_token_answered_500 sampleLib "s3cret" (requestWith "Bearer hs256.exp900.sig")
    "hs256.exp900.sig" []
    { Raw := "hs256.exp900.sig", Method := some jwt.SigningMethod.HS256,
      Header := [("alg", GoVal.str "HS256"), ("typ", GoVal.str "JWT")],
      Claims := jwt.Claims.MapClaims [("exp", GoVal.num 900)], Signature := "", Valid := false }
    "hs256" "exp900" "sig" [("exp", GoVal.num 900)] 900
    rfl rfl rfl rfl rfl rfl (by decide) (by decide)).2.2 rfl rfl

/-! ## Theorems: `JWTMiddleware`, the forwarded request -/

theorem attachClaims_of_absent (claims : List (String × GoVal)) (r : Request)
    (habs : ∀ v, ("permissions", v) ∉ claims) : attachClaims r claims = r := by
  induction claims with
  | nil => rfl
  | cons kv rest ih =>
    obtain ⟨k, x⟩ := kv
    have hk : k ≠ "permissions" := by
      intro hk
      exact habs x (by simp [hk])
    have hrest : ∀ v, ("permissions", v) ∉ rest := fun v hm =>
      habs v (List.mem_cons_of_mem _ hm)
    simp [attachClaims, hk, ih hrest]

theorem attachClaims_of_present (claims : List (String × GoVal)) (r : Request) (v : GoVal)
    (hnodup : (claims.map Prod.fst).Nodup) (hmem : ("permissions", v) ∈ claims) :
    attachClaims r claims
      = r.WithContext
          (Context.WithValue r.Context (CtxKey.ContextKey "claims")
            (GoVal.contextValue [("permissions", v)])) := by
  induction claims with
  | nil => simp at hmem
  | cons kv rest ih =>
    obtain ⟨k, x⟩ := kv
    simp only [List.map_cons, List.nodup_cons] at hnodup
    by_cases hk : k = "permissions"
    · subst hk
      have hrest : ∀ v', ("permissions", v') ∉ rest := by
        intro v' hm
        exact hnodup.1 (List.mem_map.mpr ⟨("permissions", v'), hm, rfl⟩)
      have hx : x = v := by
        rcases List.mem_cons.mp hmem with h | h
        · exact ((Prod.mk.injEq _ _ _ _).mp h).2.symm
        · exact absurd h (hrest v)
      subst hx
      simp [attachClaims, attachClaims_of_absent rest _ hrest]
    · have hmem' : ("permissions", v) ∈ rest := by
        rcases List.mem_cons.mp hmem with h | h
        · exact absurd ((Prod.mk.injEq _ _ _ _).mp h).1.symm hk
        · exact h
      simp [attachClaims, hk, ih hnodup.2 hmem']

/-- C8: when the token is accepted with decoded claims `claims`, the next handler is invoked
once, nothing else is written, and the request it receives has the method, URL, headers
and body of the original; with a `permissions` entry of value `v` its context is the
original context extended by the binding of `claims` to the `ContextValue` whose map is
exactly `permissions: v`, from which `Get("permissions")` returns `v`; without such an
entry it is the original request. -/
theorem C8_forwarded_request_carries_permissions
    (Parse : String → jwt.Keyfunc → jwt.ParseResult) (TOKEN_SECRET : String) (r : Request)
    (token1 : String) (rest : List String) (jwtToken : jwt.Token)
    (claims : List (String × GoVal))
    (hsplit : strings.Split (Header.Get r.Header "Authorization") ' '
      = "Bearer" :: token1 :: rest)
    (hparse : Parse token1 (keyFunc TOKEN_SECRET) = (some jwtToken, none))
    (hclaims : jwtToken.Claims = jwt.Claims.MapClaims claims)
    (hvalid : jwtToken.Valid = true)
    (hnodup : (claims.map Prod.fst).Nodup) :
    ∃ r', JWTMiddlewareWith Parse TOKEN_SECRET r = [Event.jwtParse token1, Event.next r']
      ∧ r'.Method = r.Method ∧ r'.URL = r.URL ∧ r'.Header = r.Header ∧ r'.Body = r.Body
      ∧ (∀ v, ("permissions", v) ∈ claims →
          r'.ctx = (CtxKey.ContextKey "claims", GoVal.contextValue [("permissions", v)]) :: r.ctx
            ∧ Context.Value r'.Context (CtxKey.ContextKey "claims")
                = GoVal.contextValue [("permissions", v)]
            ∧ ContextValue.Get [("permissions", v)] "permissions" = v)
      ∧ ((∀ v, ("permissions", v) ∉ claims) → r' = r) := by
  have hrun : JWTMiddlewareWith Parse TOKEN_SECRET r
      = [Event.jwtParse token1, Event.next (attachClaims r claims)] := by
    rw [JWTMiddlewareWith_bearer _ _ _ _ _ hsplit, hparse]
    simp [afterParse, hclaims, hvalid]
  by_cases hex : ∃ v, ("permissions", v) ∈ claims
  · obtain ⟨v, hv⟩ := hex
    have hatt := attachClaims_of_present claims r v hnodup hv
    refine ⟨attachClaims r claims, hrun, ?_, ?_, ?_, ?_, ?_, ?_⟩
    · rw [hatt]; rfl
    · rw [hatt]; rfl
    · rw [hatt]; rfl
    · rw [hatt]; rfl
    · intro v' hv'
      have hatt' := attachClaims_of_present claims r v' hnodup hv'
      rw [hatt']
      refine ⟨rfl, ?_, ?_⟩
      · simp [Request.Context, Request.WithContext, Context.WithValue, Context.Value]
      · simp [ContextValue.Get, mapIndex]
    · intro habs
      exact absurd hv (habs v)
  · have habs : ∀ v, ("permissions", v) ∉ claims := fun v hv => hex ⟨v, hv⟩
    have hatt := attachClaims_of_absent claims r habs
    refine ⟨attachClaims r claims, hrun, ?_, ?_, ?_, ?_, ?_, ?_⟩
    · rw [hatt]
    · rw [hatt]
    · rw [hatt]
    · rw [hatt]
    · intro v hv
      exact absurd hv (habs v)
    · intro _
      exact hatt

theorem C8_forwarded_request_carries_permissions_witness :
    ∃ r', JWTMiddlewareWith (jwt.Parse sampleLib) "s3cret" (requestWith "Bearer hs256.perms.sig")
        = [Event.jwtParse "hs256.perms.sig", Event.next r']
      ∧ r'.ctx = [(CtxKey.ContextKey "claims",
          GoVal.contextValue [("permissions", permissionsValue [("billing", ["read"])])])] := by
  obtain ⟨r', hrun, _, _, _, _, hctx, _⟩ :=
    C8_forwarded_request_carries_permissions (jwt.Parse sampleLib) "s3cret"
      (requestWith "Bearer hs256.perms.sig") "hs256.perms.sig" []
      { Raw := "hs256.perms.sig", Method := some jwt.SigningMethod.HS256,
        Header := [("alg", GoVal.str "HS256"), ("typ", GoVal.str "JWT")],
        Claims := jwt.Claims.MapClaims
          [("sub", GoVal.str "u1"), ("permissions", permissionsValue [("billing", ["read"])])],
        Signature := "sig", Valid := true }
      [("sub", GoVal.str "u1"), ("permissions", permissionsValue [("billing", ["read"])])]
      rfl rfl rfl rfl (by decide)
  exact ⟨r', hrun, (hctx _ (by simp)).1⟩

/-! ## Theorems: `pkg/httpclient` -/

/-- C9: when the breaker-wrapped transport call succeeds with a response of status `s`,
`Client.do` returns a nil response with the error `got non 2xx status code: s` exactly when
`errNon2xx` is set and `s` lies outside 200..299, and returns that response with a nil
error in every other case. -/
theorem C9_do_strict_mode (c : httpclient.Client) (w : httpclient.World)
    (req : httpclient.Request) (resp : httpclient.Response)
    (hcall : w.hystrixDo req = Except.ok resp) :
    (c.do_ w req = (none, some ("got non 2xx status code: " ++ toString resp.StatusCode))
        ↔ (c.errNon2xx = true ∧ (resp.StatusCode < 200 ∨ resp.StatusCode ≥ 300)))
      ∧ (¬ (c.errNon2xx = true ∧ (resp.StatusCode < 200 ∨ resp.StatusCode ≥ 300))
          → c.do_ w req = (some resp, none))
      ∧ (∀ e, c.do_ w req = (none, some e)
          → (c.errNon2xx = true ∧ (resp.StatusCode < 200 ∨ resp.StatusCode ≥ 300))) := by
  by_cases hs : c.errNon2xx = true ∧ (resp.StatusCode < 200 ∨ resp.StatusCode ≥ 300)
  · have hrun : c.do_ w req
        = (none, some ("got non 2xx status code: " ++ toString resp.StatusCode)) := by
      obtain ⟨h1, h2⟩ := hs
      have hb : (decide (resp.StatusCode < 200) || decide (resp.StatusCode ≥ 300)) = true := by
        simpa using h2
      simp [httpclient.Client.do_, hcall, h1, hb]
    exact ⟨⟨fun _ => hs, fun _ => hrun⟩, fun hn => absurd hs hn, fun _ _ => hs⟩
  · have hrun : c.do_ w req = (some resp, none) := by
      have hb : (c.errNon2xx && (decide (resp.StatusCode < 200) || decide (resp.StatusCode ≥ 300)))
          = false := by
        cases hE : c.errNon2xx with
        | false => simp
        | true =>
          have h2 : ¬ (resp.StatusCode < 200 ∨ resp.StatusCode ≥ 300) := fun h => hs ⟨hE, h⟩
          simpa using h2
      simp [httpclient.Client.do_, hcall, hb]
    refine ⟨⟨fun h => ?_, fun h => absurd h hs⟩, fun _ => hrun, fun e h => ?_⟩
    · rw [hrun] at h
      simp at h
    · rw [hrun] at h
      simp at h

theorem C9_do_strict_mode_witness :
    httpclient.Client.do_ { errNon2xx := true, name := "c1" } (brokenBodyWorld 404)
        { Method := "GET", URL := "/x", Header := [] }
        = (none, some ("got non 2xx status code: " ++ toString (404 : Int)))
      ∧ httpclient.Client.do_ { errNon2xx := false, name := "c1" } (brokenBodyWorld 404)
        { Method := "GET", URL := "/x", Header := [] }
        = (some (sampleResponse 404), none)
      ∧ httpclient.Client.do_ { errNon2xx := true, name := "c1" } (brokenBodyWorld 204)
        { Method := "GET", URL := "/x", Header := [] }
        = (some (sampleResponse 204), none) :=
  ⟨(C9_do_strict_mode { errNon2xx := true, name := "c1" } (brokenBodyWorld 404)
      { Method := "GET", URL := "/x", Header := [] } (sampleResponse 404) rfl).1.2
      ⟨rfl, Or.inr (by decide)⟩,
   (C9_do_strict_mode { errNon2xx := false, name := "c1" } (brokenBodyWorld 404)
      { Method := "GET", URL := "/x", Header := [] } (sampleResponse 404) rfl).2.1
      (by decide),
   (C9_do_strict_mode { errNon2xx := true, name := "c1" } (brokenBodyWorld 204)
      { Method := "GET", URL := "/x", Header := [] } (sampleResponse 204) rfl).2.1
      (by decide)⟩

/-- Once `do` has handed `DoJSON` a response, `DoJSON` closes the transport stream of that
response on every path: a failing decompression, a failing read, a failing or a
succeeding decoding. -/
theorem httpclient.Client.DoJSON_closes (c : httpclient.Client) (w : httpclient.World)
    (req : httpclient.Request) (resp : httpclient.Response)
    (hdo : c.do_ w req = (some resp, none)) :
    (c.DoJSON w req).effects = resp.Body.Close := by
  unfold httpclient.Client.DoJSON
  rw [hdo]
  simp only
  split
  · split
    · rfl
    · split <;> rfl
  · split <;> rfl

theorem httpclient.Body.Close_ne_nil (b : httpclient.Body) : b.Close ≠ [] := by
  induction b with
  | stream id => simp [httpclient.Body.Close]
  | gzreadCloser closer ih => simpa [httpclient.Body.Close] using ih

/-- In strict mode a response of a status outside 200..299 is dropped by `do` without being
closed: `DoJSON` returns the error and has no effect on the body. -/
theorem httpclient.Client.DoJSON_strict_drops_unclosed (c : httpclient.Client)
    (w : httpclient.World) (req : httpclient.Request) (e : String)
    (hdo : c.do_ w req = (none, some e)) :
    c.DoJSON w req = { resp := none, err := some e, effects := [] } := by
  unfold httpclient.Client.DoJSON
  rw [hdo]

/-- C10 fails for `DoURLQueryJSON` when reading the body fails: the transport has produced a
response, `ioutil.ReadAll` returns an error, and the function returns that response and
the error before it reaches `defer resp.Body.Close()`, so no stream is closed although
closing the body would close one; `DoJSON`, given the same response by `do`, closes it. -/
theorem C10_DoURLQueryJSON_read_failure_leaves_body_open (c : httpclient.Client)
    (w : httpclient.World) (method path : String) (param : GoVal)
    (requestURL urlQuery e : String) (req0 : httpclient.Request) (resp : httpclient.Response)
    (hurl : w.urlParse path = Except.ok requestURL)
    (hquery : w.queryValues param = Except.ok urlQuery)
    (hreq : w.NewRequest method (w.urlString requestURL urlQuery) = Except.ok req0)
    (hdo : c.Do w
      { req0 with
        Header := Header.Set req0.Header "Content-Type" "application/x-www-form-urlencoded" }
      = (some resp, none))
    (hread : w.ReadAll resp.Body = Except.error e) :
    c.DoURLQueryJSON w method path param = { resp := some resp, err := some e, effects := [] }
      ∧ (∀ id, httpclient.Effect.closed id ∉ (c.DoURLQueryJSON w method path param).effects)
      ∧ (c.DoURLQueryJSON w method path param).effects ≠ resp.Body.Close
      ∧ (c.DoJSON w
          { req0 with
            Header := Header.Set req0.Header "Content-Type" "application/x-www-form-urlencoded" }).effects
          = resp.Body.Close := by
  have hrun : c.DoURLQueryJSON w method path param
      = { resp := some resp, err := some e, effects := [] } := by
    unfold httpclient.Client.DoURLQueryJSON
    rw [hurl]
    simp only
    rw [hquery]
    simp only
    rw [hreq]
    simp only
    rw [hdo]
    simp only
    rw [hread]
  refine ⟨hrun, ?_, ?_, ?_⟩
  · intro id hmem
    rw [hrun] at hmem
    simp at hmem
  · rw [hrun]
    exact fun h => httpclient.Body.Close_ne_nil resp.Body h.symm
  · exact httpclient.Client.DoJSON_closes c w _ resp hdo

theorem C10_DoURLQueryJSON_read_failure_leaves_body_open_witness :
    httpclient.Client.DoURLQueryJSON { errNon2xx := false, name := "c1" } (brokenBodyWorld 200)
        "GET" "http://auth/checkrights" GoVal.nil
      = { resp := some (sampleResponse 200), err := some "unexpected EOF", effects := [] } :=
  (C10_DoURLQueryJSON_read_failure_leaves_body_open { errNon2xx := false, name := "c1" }
    (brokenBodyWorld 200) "GET" "http://auth/checkrights" GoVal.nil
    "http://auth/checkrights" "q=1" "unexpected EOF"
    { Method := "GET", URL := "http://auth/checkrights?q=1", Header := [] }
    (sampleResponse 200) rfl rfl rfl rfl rfl).1

/-! ## Theorems: `checkPermission` on forwarded requests -/

theorem checkPermission_panics_of_non_map (ctx : Context) (M : List (String × GoVal))
    (_permissions : List String)
    (hctx : Context.Value ctx (CtxKey.ContextKey "claims") = GoVal.contextValue M)
    (hv : ∀ actions, ContextValue.Get M "permissions" ≠ GoVal.map actions) :
    checkPermission ctx _permissions
      = Outcome.panics
          "interface conversion: interface \x7b\x7d is not map[string]interface \x7b\x7d" := by
  unfold checkPermission
  rw [hctx]
  dsimp only
  cases hg : ContextValue.Get M "permissions" with
  | map actions => exact absurd hg (hv actions)
  | _ => rfl

/-- A `permissions` object whose first visited value is not a list makes `checkPermission`
panic at `action.([]interface{})`. -/
theorem checkPermission_panics_of_non_list_action (ctx : Context) (M : List (String × GoVal))
    (_permissions : List String) (category : String) (action : GoVal)
    (others : List (String × GoVal))
    (hctx : Context.Value ctx (CtxKey.ContextKey "claims") = GoVal.contextValue M)
    (hperm : ContextValue.Get M "permissions" = GoVal.map ((category, action) :: others))
    (ha : ∀ xs, action ≠ GoVal.slice xs) :
    checkPermission ctx _permissions
      = Outcome.panics
          "interface conversion: interface \x7b\x7d is not []interface \x7b\x7d" := by
  unfold checkPermission
  rw [hctx]
  dsimp only
  rw [hperm]
  dsimp only
  cases action with
  | slice xs => exact absurd rfl (ha xs)
  | _ => rfl

/-- A `permissions` object whose first visited list starts with a value that is not a string
makes `checkPermission` panic at `permission.(string)` as soon as one permission is
required. -/
theorem checkPermission_panics_of_non_string_permission (ctx : Context)
    (M : List (String × GoVal)) (required : String) (more : List String) (category : String)
    (permission : GoVal) (permissions : List GoVal) (others : List (String × GoVal))
    (hctx : Context.Value ctx (CtxKey.ContextKey "claims") = GoVal.contextValue M)
    (hperm : ContextValue.Get M "permissions"
      = GoVal.map ((category, GoVal.slice (permission :: permissions)) :: others))
    (hp : ∀ s, permission ≠ GoVal.str s) :
    checkPermission ctx (required :: more)
      = Outcome.panics "interface conversion: interface \x7b\x7d is not string" := by
  unfold checkPermission
  rw [hctx]
  dsimp only
  rw [hperm]
  dsimp only
  cases permission with
  | str s => exact absurd rfl (hp s)
  | _ => rfl

/-- C12 fails on every accepted token whose `permissions` claim is not a JSON object (a
string, a number, a list, a boolean, null): the handler forwards the request with that
value attached, and on the forwarded context `checkPermission` panics at the assertion
`.(map[string]interface{})`, for every list of required permissions. -/
theorem C12_non_object_permissions_panics
    (Parse : String → jwt.Keyfunc → jwt.ParseResult) (TOKEN_SECRET : String) (r : Request)
    (token1 : String) (rest : List String) (jwtToken : jwt.Token)
    (claims : List (String × GoVal)) (v : GoVal) (_permissions : List String)
    (hsplit : strings.Split (Header.Get r.Header "Authorization") ' '
      = "Bearer" :: token1 :: rest)
    (hparse : Parse token1 (keyFunc TOKEN_SECRET) = (some jwtToken, none))
    (hclaims : jwtToken.Claims = jwt.Claims.MapClaims claims)
    (hvalid : jwtToken.Valid = true)
    (hnodup : (claims.map Prod.fst).Nodup)
    (hmem : ("permissions", v) ∈ claims)
    (hv : ∀ actions, v ≠ GoVal.map actions) :
    ∃ r', JWTMiddlewareWith Parse TOKEN_SECRET r = [Event.jwtParse token1, Event.next r']
      ∧ checkPermission r'.Context _permissions
          = Outcome.panics
              "interface conversion: interface \x7b\x7d is not map[string]interface \x7b\x7d" := by
  have hrun : JWTMiddlewareWith Parse TOKEN_SECRET r
      = [Event.jwtParse token1, Event.next (attachClaims r claims)] := by
    rw [JWTMiddlewareWith_bearer _ _ _ _ _ hsplit, hparse]
    simp [afterParse, hclaims, hvalid]
  refine ⟨attachClaims r claims, hrun, ?_⟩
  rw [attachClaims_of_present claims r v hnodup hmem]
  apply checkPermission_panics_of_non_map _ [("permissions", v)]
  · simp [Request.Context, Request.WithContext, Context.WithValue, Context.Value]
  · intro actions hget
    have hval : ContextValue.Get [("permissions", v)] "permissions" = v := by
      simp [ContextValue.Get, mapIndex]
    rw [hval] at hget
    exact hv actions hget

theorem C12_non_object_permissions_panics_witness :
    ∃ r', JWTMiddlewareWith (jwt.Parse stringPermissionsLib) "s3cret"
          (requestWith "Bearer hs256.permstr.sig")
        = [Event.jwtParse "hs256.permstr.sig", Event.next r']
      ∧ checkPermission r'.Context ["read"]
          = Outcome.panics
              "interface conversion: interface \x7b\x7d is not map[string]interface \x7b\x7d" :=
  C12_non_object_permissions_panics (jwt.Parse stringPermissionsLib) "s3cret"
    (requestWith "Bearer hs256.permstr.sig") "hs256.permstr.sig" []
    { Raw := "hs256.permstr.sig", Method := some jwt.SigningMethod.HS256,
      Header := [("alg", GoVal.str "HS256"), ("typ", GoVal.str "JWT")],
      Claims := jwt.Claims.MapClaims [("permissions", GoVal.str "admin")],
      Signature := "sig", Valid := true }
    [("permissions", GoVal.str "admin")] (GoVal.str "admin") ["read"]
    rfl rfl rfl rfl (by decide) (by simp) (fun _ h => by cases h)

/-! ## Theorems: the body encoding of `pkg/httpclient` -/

theorem httpclient.toIoReader_val_other (Marshal : GoVal → Except String (List UInt8))
    (v : GoVal) (hnil : v ≠ GoVal.nil) (hstr : ∀ s, v ≠ GoVal.str s) :
    httpclient.toIoReader Marshal (httpclient.BodyArg.val v)
      = match Marshal v with
        | Except.error err => (none, some err)
        | Except.ok b => (some (httpclient.Reader.buffer b), none) := by
  cases v with
  | nil => exact absurd rfl hnil
  | str s => exact absurd rfl (hstr s)
  | _ => rfl

theorem httpclient.issue_of_reader (c : httpclient.Client) (env : httpclient.Env)
    (spanInCtx : Bool) (url : String) (headers : Option Header) (body : httpclient.BodyArg)
    (reqP reqG : httpclient.Request) (rd : Option httpclient.Reader)
    (hpost : env.NewRequest "POST" url = Except.ok reqP)
    (hget : env.NewRequest "GET" url = Except.ok reqG)
    (hrd : httpclient.toIoReader env.Marshal body = (rd, none)) :
    httpclient.issue c env spanInCtx url headers body
      (some (httpclient.outgoing env spanInCtx reqP rd headers))
      (some (httpclient.outgoing env spanInCtx reqG rd headers)) := by
  have hP : httpclient.buildRequest env spanInCtx "POST" url body headers
      = Except.ok (httpclient.outgoing env spanInCtx reqP rd headers) := by
    simp [httpclient.buildRequest, hrd, hpost]
  have hG : httpclient.buildRequest env spanInCtx "GET" url body headers
      = Except.ok (httpclient.outgoing env spanInCtx reqG rd headers) := by
    simp [httpclient.buildRequest, hrd, hget]
  refine ⟨?_, ?_, ?_⟩
  · simp [httpclient.Client.Post, httpclient.Client.doMethod, hP]
  · simp [httpclient.Client.PostJSON, httpclient.Client.doMethodJSON, hP]
  · simp [httpclient.Client.GetJSONWithReqBody, httpclient.Client.doMethodJSON, hG]

theorem httpclient.issue_of_error (c : httpclient.Client) (env : httpclient.Env)
    (spanInCtx : Bool) (url : String) (headers : Option Header) (body : httpclient.BodyArg)
    (rd : Option httpclient.Reader) (e : String)
    (hrd : httpclient.toIoReader env.Marshal body = (rd, some e)) :
    httpclient.issue c env spanInCtx url headers body none none
      ∧ (c.Post env spanInCtx url headers body).out = (none, some e)
      ∧ (c.PostJSON env spanInCtx url headers body).out
          = { resp := none, err := some e, effects := [] }
      ∧ (c.GetJSONWithReqBody env spanInCtx url headers body).out
          = { resp := none, err := some e, effects := [] } := by
  have hB : ∀ method, httpclient.buildRequest env spanInCtx method url body headers
      = Except.error e := by
    intro method
    simp [httpclient.buildRequest, hrd]
  refine ⟨⟨?_, ?_, ?_⟩, ?_, ?_, ?_⟩ <;>
    simp [httpclient.Client.Post, httpclient.Client.PostJSON,
      httpclient.Client.GetJSONWithReqBody, httpclient.Client.doMethod,
      httpclient.Client.doMethodJSON, hB]

theorem httpclient.outgoing_fields (env : httpclient.Env) (spanInCtx : Bool)
    (req0 : httpclient.Request) (rd : Option httpclient.Reader) (headers : Option Header) :
    (httpclient.outgoing env spanInCtx req0 rd headers).Body = rd
      ∧ (httpclient.outgoing env spanInCtx req0 rd headers).Method = req0.Method
      ∧ (httpclient.outgoing env spanInCtx req0 rd headers).URL = req0.URL
      ∧ (httpclient.outgoing env spanInCtx req0 rd headers).Header
          = if spanInCtx then env.Inject (headers.getD req0.Header)
            else headers.getD req0.Header := by
  cases spanInCtx <;> cases headers <;> simp [httpclient.outgoing]

/-- C11, as the specification states it, fails on a structured body: `Post` of the map
`code: 1` with the caller's header `Authorization` and no span issues a request whose body
is the JSON serialization and whose header is the caller's header as it was passed,
without any `Content-Type`. -/
theorem C11_structured_body_without_content_type_counterexample :
    sampleEnv.Marshal (GoVal.map [("code", GoVal.str "1")]) = Except.ok [123, 125]
      ∧ (httpclient.Client.Post { errNon2xx := false, name := "c1" } sampleEnv false
          "http://auth/checkrights" (some [("Authorization", ["tok"])])
          (httpclient.BodyArg.val (GoVal.map [("code", GoVal.str "1")]))).issued
        = some { Method := "POST", URL := "http://auth/checkrights",
                 Header := [("Authorization", ["tok"])],
                 Body := some (httpclient.Reader.buffer [123, 125]) }
      ∧ Header.Get [("Authorization", ["tok"])] "Content-Type" ≠ "application/json"
      ∧ (∀ vs, ("Content-Type", vs) ∉ [("Authorization", ["tok"])]) := by
  refine ⟨rfl, rfl, by decide, ?_⟩
  intro vs hmem
  simp at hmem

/-- C11, amended: for every body given to `Post`, `PostJSON` or `GetJSONWithReqBody`, a nil
body yields a request without body; a string or a byte slice yields a body of exactly
these bytes; a reader is the body as it is; any other value yields a body equal to its
JSON serialization; if the serialization fails the error is returned and no request is
issued.  The header of the issued request does not depend on the body: it is the header
passed by the caller (that of the fresh request when none is passed), with the span
context injected when the context carries a span. -/
theorem C11_body_encoding_rule (c : httpclient.Client) (env : httpclient.Env)
    (spanInCtx : Bool) (url : String) (headers : Option Header)
    (reqP reqG : httpclient.Request)
    (hpost : env.NewRequest "POST" url = Except.ok reqP)
    (hget : env.NewRequest "GET" url = Except.ok reqG) :
    httpclient.issue c env spanInCtx url headers (httpclient.BodyArg.val GoVal.nil)
        (some (httpclient.outgoing env spanInCtx reqP none headers))
        (some (httpclient.outgoing env spanInCtx reqG none headers))
      ∧ (∀ s : String,
          httpclient.issue c env spanInCtx url headers (httpclient.BodyArg.val (GoVal.str s))
            (some (httpclient.outgoing env spanInCtx reqP
              (some (httpclient.Reader.buffer s.toUTF8.data.toList)) headers))
            (some (httpclient.outgoing env spanInCtx reqG
              (some (httpclient.Reader.buffer s.toUTF8.data.toList)) headers)))
      ∧ (∀ b : List UInt8,
          httpclient.issue c env spanInCtx url headers (httpclient.BodyArg.bytes b)
            (some (httpclient.outgoing env spanInCtx reqP
              (some (httpclient.Reader.buffer b)) headers))
            (some (httpclient.outgoing env spanInCtx reqG
              (some (httpclient.Reader.buffer b)) headers)))
      ∧ (∀ id : Nat,
          httpclient.issue c env spanInCtx url headers (httpclient.BodyArg.reader id)
            (some (httpclient.outgoing env spanInCtx reqP
              (some (httpclient.Reader.reader id)) headers))
            (some (httpclient.outgoing env spanInCtx reqG
              (some (httpclient.Reader.reader id)) headers)))
      ∧ (∀ (v : GoVal) (b : List UInt8), v ≠ GoVal.nil → (∀ s, v ≠ GoVal.str s) →
          env.Marshal v = Except.ok b →
          httpclient.issue c env spanInCtx url headers (httpclient.BodyArg.val v)
            (some (httpclient.outgoing env spanInCtx reqP
              (some (httpclient.Reader.buffer b)) headers))
            (some (httpclient.outgoing env spanInCtx reqG
              (some (httpclient.Reader.buffer b)) headers)))
      ∧ (∀ (v : GoVal) (e : String), v ≠ GoVal.nil → (∀ s, v ≠ GoVal.str s) →
          env.Marshal v = Except.error e →
          httpclient.issue c env spanInCtx url headers (httpclient.BodyArg.val v) none none
            ∧ (c.Post env spanInCtx url headers (httpclient.BodyArg.val v)).out = (none, some e)
            ∧ (c.PostJSON env spanInCtx url headers (httpclient.BodyArg.val v)).out
                = { resp := none, err := some e, effects := [] }
            ∧ (c.GetJSONWithReqBody env spanInCtx url headers (httpclient.BodyArg.val v)).out
                = { resp := none, err := some e, effects := [] })
      ∧ (∀ (req0 : httpclient.Request) (rd : Option httpclient.Reader),
          (httpclient.outgoing env spanInCtx req0 rd headers).Body = rd
            ∧ (httpclient.outgoing env spanInCtx req0 rd headers).Header
                = if spanInCtx then env.Inject (headers.getD req0.Header)
                  else headers.getD req0.Header) := by
  refine ⟨?_, ?_, ?_, ?_, ?_, ?_, ?_⟩
  · exact httpclient.issue_of_reader c env spanInCtx url headers _ reqP reqG none hpost hget rfl
  · intro s
    exact httpclient.issue_of_reader c env spanInCtx url headers _ reqP reqG _ hpost hget rfl
  · intro b
    exact httpclient.issue_of_reader c env spanInCtx url headers _ reqP reqG _ hpost hget rfl
  · intro id
    exact httpclient.issue_of_reader c env spanInCtx url headers _ reqP reqG _ hpost hget rfl
  · intro v b hnil hstr hm
    apply httpclient.issue_of_reader c env spanInCtx url headers _ reqP reqG _ hpost hget
    rw [httpclient.toIoReader_val_other env.Marshal v hnil hstr, hm]
  · intro v e hnil hstr hm
    apply httpclient.issue_of_error c env spanInCtx url headers _ none e
    rw [httpclient.toIoReader_val_other env.Marshal v hnil hstr, hm]
  · intro req0 rd
    have h := httpclient.outgoing_fields env spanInCtx req0 rd headers
    exact ⟨h.1, h.2.2.2⟩

theorem C11_body_encoding_rule_witness :
    (httpclient.Client.PostJSON { errNon2xx := false, name := "c1" } sampleEnv true
        "http://auth/checkrights" (some [("Content-Type", ["application/json"])])
        (httpclient.BodyArg.val (GoVal.map [("code", GoVal.str "1")]))).issued
      = some { Method := "POST", URL := "http://auth/checkrights",
               Header := [("Uber-Trace-Id", ["1:1:0:1"]), ("Content-Type", ["application/json"])],
               Body := some (httpclient.Reader.buffer [123, 125]) }
      ∧ (httpclient.Client.Post { errNon2xx := false, name := "c1" } sampleEnv false
          "http://auth/checkrights" none
          (httpclient.BodyArg.val (GoVal.other "chan int"))).issued = none :=
  ⟨((C11_body_encoding_rule { errNon2xx := false, name := "c1" } sampleEnv true
      "http://auth/checkrights" (some [("Content-Type", ["application/json"])])
      { Method := "POST", URL := "http://auth/checkrights", Header := [] }
      { Method := "GET", URL := "http://auth/checkrights", Header := [] } rfl rfl).2.2.2.2.1
      (GoVal.map [("code", GoVal.str "1")]) [123, 125]
      (fun h => by cases h) (fun _ h => by cases h) rfl).2.1,
   ((C11_body_encoding_rule { errNon2xx := false, name := "c1" } sampleEnv false
      "http://auth/checkrights" none
      { Method := "POST", URL := "http://auth/checkrights", Header := [] }
      { Method := "GET", URL := "http://auth/checkrights", Header := [] } rfl rfl).2.2.2.2.2.1
      (GoVal.other "chan int") "json: unsupported type: chan int"
      (fun h => by cases h) (fun _ h => by cases h) rfl).1.1⟩

end GoSkeletonAuth
